import Mathlib

/-!
Verification of the ledger-consistency logic of the Dompet Digital personal
finance tracker (the `AppProvider` state manager in the application context
module).  The five persisted collections and every mutation operation are
shallowly embedded below; React's functional state updaters are modelled as
sequential updates to an explicit `Store` value, since within one event
handler each `set*(prev => ...)` updater observes the effects of earlier
queued updaters while plain closure reads observe the pre-operation snapshot.

Modelling conventions:
* JS numbers (amounts, balances) are modelled as `Int`; ISO date strings,
  which the code only ever compares via `new Date(d).getTime()`, as `Int`.
* `crypto.randomUUID()` identifiers are modelled as `Nat`; each creating
  operation receives the generated identifier explicitly as a parameter,
  and freshness ("globally-unique") is an explicit hypothesis where needed.
* `Transaction.id` is omitted from the record: the source never reads a
  transaction's own id (transactions are located by category, account or
  link fields only), so it has no observable effect.
-/

inductive TransactionType where
  | Income
  | Expense
  | Transfer
deriving DecidableEq, Repr

inductive TransactionSource where
  | Manual
  | Investment
  | Receivable
deriving DecidableEq, Repr

inductive ReceivableStatus where
  | Unpaid
  | Paid
deriving DecidableEq, Repr

structure Account where
  id : Nat
  name : String
  type : String
  balance : Int
deriving DecidableEq, Repr

structure Platform where
  id : Nat
  name : String
deriving DecidableEq, Repr

structure Investment where
  id : Nat
  name : String
  date : Int
  accountId : Nat
  platformId : Nat
  initialValue : Int
  currentValue : Int
deriving DecidableEq, Repr

structure Transaction where
  date : Int
  type : TransactionType
  accountId : Nat
  toAccountId : Option Nat
  amount : Int
  category : String
  description : String
  source : TransactionSource
  linkedInvestmentId : Option Nat
  linkedReceivableId : Option Nat
deriving DecidableEq, Repr

structure Receivable where
  id : Nat
  debtorName : String
  amount : Int
  dueDate : Int
  accountId : Nat
  status : ReceivableStatus
deriving DecidableEq, Repr

/-- The five persisted collections owned by the provider. -/
structure Store where
  accounts : List Account
  platforms : List Platform
  investments : List Investment
  transactions : List Transaction
  receivables : List Receivable
deriving DecidableEq, Repr

def emptyStore : Store := ⟨[], [], [], [], []⟩

/-- The log is kept ordered newest-first:
`.sort((a, b) => new Date(b.date).getTime() - new Date(a.date).getTime())`,
a stable sort descending by date (`Array.prototype.sort` is stable; any
stable sort of the same preorder yields the same list). -/
def sortByDateDesc (l : List Transaction) : List Transaction :=
  l.insertionSort (fun a b => b.date ≤ a.date)

/-- Per-account balance update performed by `addTransaction` (lines 51-60):
the `acc.id === accountId` branch returns early, so for a self-transfer the
`toAccountId` credit is never reached. -/
def applyTxToAccount (tx : Transaction) (acc : Account) : Account :=
  if acc.id = tx.accountId then
    match tx.type with
    | .Income => { acc with balance := acc.balance + tx.amount }
    | _ => { acc with balance := acc.balance - tx.amount }
  else if tx.toAccountId = some acc.id ∧ tx.type = .Transfer then
    { acc with balance := acc.balance + tx.amount }
  else acc

/-- `addTransaction`: prepend, re-sort by date descending, patch balances. -/
def addTransaction (s : Store) (tx : Transaction) : Store :=
  { s with
    transactions := sortByDateDesc (tx :: s.transactions)
    accounts := s.accounts.map (applyTxToAccount tx) }

/-- `addAccount`: the account starts at balance 0; when `initialBalance ≠ 0`
(it may be negative) a synthetic `"Saldo Awal"` Income transaction is routed
through `addTransaction`. -/
def addAccount (s : Store) (newId : Nat) (name type : String)
    (initialBalance : Int) (today : Int) : Store :=
  let s1 := { s with accounts := s.accounts ++ [⟨newId, name, type, 0⟩] }
  if initialBalance ≠ 0 then
    addTransaction s1
      { date := today
        type := .Income
        accountId := newId
        toAccountId := none
        amount := initialBalance
        category := "Saldo Awal"
        description := "Saldo awal untuk rekening " ++ name
        source := .Manual
        linkedInvestmentId := none
        linkedReceivableId := none }
  else s1

/-- Replace the first element satisfying `p` by its image under `f`
(models `newTxs[initialTxIndex] = updatedTx`). -/
def updateFirst (p : α → Bool) (f : α → α) : List α → List α
  | [] => []
  | x :: xs => if p x then f x :: xs else x :: updateFirst p f xs

/-- Predicate locating an account's opening-balance transaction. -/
def isSaldoTx (aid : Nat) (t : Transaction) : Bool :=
  decide (t.accountId = aid ∧ t.category = "Saldo Awal")

/-- `updateAccount(updatedAccountData, newInitialBalance)` (lines 79-132):
reads the opening-balance transaction from the pre-operation snapshot,
computes `delta = new − old`, edits the log (remove / update in place /
unshift a fresh opening transaction), re-sorts, and patches the cached
balance directly by `delta`. -/
def updateAccount (s : Store) (accData : Account) (newInitialBalance : Int)
    (today : Int) : Store :=
  let found := s.transactions.find? (isSaldoTx accData.id)
  let oldInitialBalance : Int := match found with
    | some t => t.amount
    | none => 0
  let balanceDifference := newInitialBalance - oldInitialBalance
  let newTxs : List Transaction :=
    match found with
    | some _ =>
      if newInitialBalance = 0 then
        s.transactions.eraseP (isSaldoTx accData.id)
      else
        updateFirst (isSaldoTx accData.id)
          (fun t => { t with amount := newInitialBalance }) s.transactions
    | none =>
      if newInitialBalance ≠ 0 then
        { date := today
          type := .Income
          accountId := accData.id
          toAccountId := none
          amount := newInitialBalance
          category := "Saldo Awal"
          description := "Saldo awal untuk rekening " ++ accData.name
          source := .Manual
          linkedInvestmentId := none
          linkedReceivableId := none } :: s.transactions
      else s.transactions
  { s with
    transactions := sortByDateDesc newTxs
    accounts := s.accounts.map (fun acc =>
      if acc.id = accData.id then
        { acc with
          name := accData.name
          type := accData.type
          balance := acc.balance + balanceDifference }
      else acc) }

/-- `isAccountInUse`: any non-opening transaction touching the account as
source or destination, or any investment funded from it. -/
def isAccountInUse (s : Store) (id : Nat) : Bool :=
  s.transactions.any (fun t =>
    decide ((t.accountId = id ∨ t.toAccountId = some id) ∧
      t.category ≠ "Saldo Awal")) ||
  s.investments.any (fun i => decide (i.accountId = id))

/-- `deleteAccount`: guarded rejection, else drop the account and its
opening-balance transactions. -/
def deleteAccount (s : Store) (id : Nat) : Store :=
  if isAccountInUse s id then s
  else
    { s with
      accounts := s.accounts.filter (fun acc => decide (acc.id ≠ id))
      transactions := s.transactions.filter (fun t =>
        decide (¬(t.accountId = id ∧ t.category = "Saldo Awal"))) }

def getAccount (s : Store) (id : Nat) : Option Account :=
  s.accounts.find? (fun a => decide (a.id = id))

def addPlatform (s : Store) (newId : Nat) (name : String) : Store :=
  { s with platforms := s.platforms ++ [⟨newId, name⟩] }

def updatePlatform (s : Store) (p : Platform) : Store :=
  { s with platforms := s.platforms.map (fun q => if q.id = p.id then p else q) }

def isPlatformInUse (s : Store) (id : Nat) : Bool :=
  s.investments.any (fun i => decide (i.platformId = id))

def deletePlatform (s : Store) (id : Nat) : Store :=
  if isPlatformInUse s id then s
  else { s with platforms := s.platforms.filter (fun p => decide (p.id ≠ id)) }

def getPlatform (s : Store) (id : Nat) : Option Platform :=
  s.platforms.find? (fun p => decide (p.id = id))

/-- `addInvestment`: append the record, then drain `initialValue` from the
funding account through a linked Expense transaction. -/
def addInvestment (s : Store) (newId : Nat) (name : String) (date : Int)
    (accountId platformId : Nat) (initialValue currentValue : Int) : Store :=
  let s1 := { s with investments :=
    s.investments ++ [⟨newId, name, date, accountId, platformId, initialValue, currentValue⟩] }
  addTransaction s1
    { date := date
      type := .Expense
      accountId := accountId
      toAccountId := none
      amount := initialValue
      category := "Investasi"
      description := "Modal awal investasi " ++ name
      source := .Investment
      linkedInvestmentId := some newId
      linkedReceivableId := none }

/-- `updateInvestment`: only name, date and platform are mutable. -/
def updateInvestment (s : Store) (upd : Investment) : Store :=
  { s with investments := s.investments.map (fun inv =>
      if inv.id = upd.id then
        { inv with name := upd.name, date := upd.date, platformId := upd.platformId }
      else inv) }

def updateInvestmentValue (s : Store) (id : Nat) (newValue : Int) : Store :=
  { s with investments := s.investments.map (fun inv =>
      if inv.id = id then { inv with currentValue := newValue } else inv) }

/-- `deleteInvestment`: missing id is a silent no-op; otherwise append a
compensating Income refund via `addTransaction`, drop the investment, and
filter out every transaction with this `linkedInvestmentId` and source
`Investment` — a filter the freshly appended refund itself matches. -/
def deleteInvestment (s : Store) (id : Nat) (today : Int) : Store :=
  match s.investments.find? (fun inv => decide (inv.id = id)) with
  | none => s
  | some investmentToDelete =>
    let s1 := addTransaction s
      { date := today
        type := .Income
        accountId := investmentToDelete.accountId
        toAccountId := none
        amount := investmentToDelete.initialValue
        category := "Pengembalian Investasi"
        description := "Pengembalian modal investasi " ++ investmentToDelete.name
        source := .Investment
        linkedInvestmentId := some id
        linkedReceivableId := none }
    { s1 with
      investments := s1.investments.filter (fun inv => decide (inv.id ≠ id))
      transactions := s1.transactions.filter (fun t =>
        decide (¬(t.linkedInvestmentId = some id ∧ t.source = .Investment))) }

/-- `addReceivable`: status starts Unpaid; the lent amount leaves the
account through a linked Expense transaction. -/
def addReceivable (s : Store) (newId : Nat) (debtorName : String)
    (amount : Int) (dueDate : Int) (accountId : Nat) (today : Int) : Store :=
  let s1 := { s with receivables :=
    s.receivables ++ [⟨newId, debtorName, amount, dueDate, accountId, .Unpaid⟩] }
  addTransaction s1
    { date := today
      type := .Expense
      accountId := accountId
      toAccountId := none
      amount := amount
      category := "Piutang"
      description := "Piutang kepada " ++ debtorName
      source := .Receivable
      linkedInvestmentId := none
      linkedReceivableId := some newId }

/-- `updateReceivable`: keeps the stored financial data, replacing only the
debtor name and due date. -/
def updateReceivable (s : Store) (upd : Receivable) : Store :=
  { s with receivables := s.receivables.map (fun r =>
      if r.id = upd.id then
        { r with debtorName := upd.debtorName, dueDate := upd.dueDate }
      else r) }

/-- Per-transaction balance effect used by `deleteReceivable`'s full
recompute (lines 252-265): both `if`s run, so a self-transfer nets zero
here, unlike in `applyTxToAccount`. -/
def recomputeEffect (aid : Nat) (t : Transaction) : Int :=
  (if t.accountId = aid then
    match t.type with
    | .Income => t.amount
    | _ => -t.amount
  else 0) +
  (if t.toAccountId = some aid ∧ t.type = .Transfer then t.amount else 0)

/-- Balance replay of `deleteReceivable`: the opening-balance transaction
(first match) seeds the balance, every non-opening transaction is folded. -/
def recomputeBalance (txs : List Transaction) (aid : Nat) : Int :=
  let base : Int := match txs.find? (isSaldoTx aid) with
    | some t => t.amount
    | none => 0
  (txs.filter (fun t => decide (t.category ≠ "Saldo Awal"))).foldl
    (fun b t => b + recomputeEffect aid t) base

/-- `deleteReceivable`: drop the receivable and every linked transaction,
then recompute all account balances from the remaining log. -/
def deleteReceivable (s : Store) (id : Nat) : Store :=
  let newReceivables := s.receivables.filter (fun r => decide (r.id ≠ id))
  let newTransactions := s.transactions.filter (fun t =>
    decide (t.linkedReceivableId ≠ some id))
  let newAccounts := s.accounts.map (fun account =>
    { account with balance := recomputeBalance newTransactions account.id })
  { s with
    receivables := newReceivables
    transactions := sortByDateDesc newTransactions
    accounts := newAccounts }

/-- `markReceivableAsPaid`: no guard on the current status — only on
existence; flips status to Paid and credits the full amount again. -/
def markReceivableAsPaid (s : Store) (id : Nat) (accountId : Nat)
    (today : Int) : Store :=
  match s.receivables.find? (fun r => decide (r.id = id)) with
  | none => s
  | some receivable =>
    let s1 := { s with receivables := s.receivables.map (fun r =>
      if r.id = id then { r with status := .Paid } else r) }
    addTransaction s1
      { date := today
        type := .Income
        accountId := accountId
        toAccountId := none
        amount := receivable.amount
        category := "Piutang"
        description := "Pembayaran piutang dari " ++ receivable.debtorName
        source := .Receivable
        linkedInvestmentId := none
        linkedReceivableId := some id }

/-! ### Operation alphabet

One constructor per mutation operation of the Ledger State Manager, so that
claims about "every finite sequence of operations" can quantify over
`List Op`.  Creating operations carry the identifier produced by the
id-generation collaborator as an explicit argument. -/

inductive Op where
  | addTransaction (tx : Transaction)
  | addAccount (newId : Nat) (name type : String) (initialBalance : Int) (today : Int)
  | updateAccount (accData : Account) (newInitialBalance : Int) (today : Int)
  | deleteAccount (id : Nat)
  | addPlatform (newId : Nat) (name : String)
  | updatePlatform (p : Platform)
  | deletePlatform (id : Nat)
  | addInvestment (newId : Nat) (name : String) (date : Int)
      (accountId platformId : Nat) (initialValue currentValue : Int)
  | updateInvestment (upd : Investment)
  | updateInvestmentValue (id : Nat) (newValue : Int)
  | deleteInvestment (id : Nat) (today : Int)
  | addReceivable (newId : Nat) (debtorName : String) (amount : Int)
      (dueDate : Int) (accountId : Nat) (today : Int)
  | updateReceivable (upd : Receivable)
  | deleteReceivable (id : Nat)
  | markReceivableAsPaid (id : Nat) (accountId : Nat) (today : Int)
deriving DecidableEq, Repr

def applyOp (s : Store) : Op → Store
  | .addTransaction tx => addTransaction s tx
  | .addAccount newId name type ib today => addAccount s newId name type ib today
  | .updateAccount accData nib today => updateAccount s accData nib today
  | .deleteAccount id => deleteAccount s id
  | .addPlatform newId name => addPlatform s newId name
  | .updatePlatform p => updatePlatform s p
  | .deletePlatform id => deletePlatform s id
  | .addInvestment newId name date aid pid iv cv =>
      addInvestment s newId name date aid pid iv cv
  | .updateInvestment upd => updateInvestment s upd
  | .updateInvestmentValue id v => updateInvestmentValue s id v
  | .deleteInvestment id today => deleteInvestment s id today
  | .addReceivable newId debtor amount due aid today =>
      addReceivable s newId debtor amount due aid today
  | .updateReceivable upd => updateReceivable s upd
  | .deleteReceivable id => deleteReceivable s id
  | .markReceivableAsPaid id aid today => markReceivableAsPaid s id aid today

def runOps (s : Store) (ops : List Op) : Store := ops.foldl applyOp s

/-! ### Claim-side predicates -/

/-- Signed effect of one transaction on one account, as the spec defines it:
`+amount` for Income on `accountId`, `−amount` for Expense or Transfer on
`accountId`, `+amount` for a Transfer naming the account as `toAccountId`
(the synthetic opening-balance entries are Income transactions, so they are
counted as Income). -/
def txEffect (aid : Nat) (t : Transaction) : Int :=
  (if t.accountId = aid then
    match t.type with
    | .Income => t.amount
    | _ => -t.amount
  else 0) +
  (if t.toAccountId = some aid ∧ t.type = .Transfer then t.amount else 0)

/-- Signed sum of all transactions in a log that touch the given account. -/
def signedSum (txs : List Transaction) (aid : Nat) : Int :=
  (txs.map (txEffect aid)).sum

/-- Invariant 1 of the spec: every account's cached balance equals the
signed sum of the transactions referencing it. -/
def BalanceOk (s : Store) : Prop :=
  ∀ a ∈ s.accounts, a.balance = signedSum s.transactions a.id

/-- Every reserved-category `"Saldo Awal"` transaction in the log is an
Income transaction that is not linked to an investment. -/
def SaldoOk (s : Store) : Prop :=
  ∀ t ∈ s.transactions,
    t.category = "Saldo Awal" → t.type = .Income ∧ t.linkedInvestmentId = none

/-- Invariant 5 of the spec: at most one opening-balance transaction per
account. -/
def SaldoUnique (s : Store) : Prop :=
  ∀ a ∈ s.accounts, s.transactions.countP (isSaldoTx a.id) ≤ 1

/-- Predicate locating the transactions `deleteInvestment iid` removes. -/
def isInvLinkTx (iid : Nat) (t : Transaction) : Bool :=
  decide (t.linkedInvestmentId = some iid ∧ t.source = .Investment)

/-- Every stored investment owns exactly one linked transaction: the
capital-outflow Expense draining `initialValue` from its funding account. -/
def InvLinkOk (s : Store) : Prop :=
  ∀ inv ∈ s.investments, ∃ t,
    s.transactions.filter (isInvLinkTx inv.id) = [t] ∧
    t.type = .Expense ∧ t.accountId = inv.accountId ∧
    t.amount = inv.initialValue ∧ t.linkedReceivableId = none

/-- An identifier counts as used when it occurs anywhere in the store; the
id-generation collaborator's "globally-unique" output never collides with a
used identifier. -/
def idUsed (s : Store) (n : Nat) : Bool :=
  s.accounts.any (fun a => decide (a.id = n)) ||
  s.platforms.any (fun p => decide (p.id = n)) ||
  s.investments.any (fun i =>
    decide (i.id = n ∨ i.accountId = n ∨ i.platformId = n)) ||
  s.receivables.any (fun r => decide (r.id = n ∨ r.accountId = n)) ||
  s.transactions.any (fun t =>
    decide (t.accountId = n ∨ t.toAccountId = some n ∨
      t.linkedInvestmentId = some n ∨ t.linkedReceivableId = some n))

/-- Freshness of the generated identifier carried by a creating operation. -/
def genFresh (s : Store) : Op → Bool
  | .addAccount newId _ _ _ _ => !idUsed s newId
  | .addPlatform newId _ => !idUsed s newId
  | .addInvestment newId _ _ _ _ _ _ => !idUsed s newId
  | .addReceivable newId _ _ _ _ _ => !idUsed s newId
  | _ => true

/-- A caller-supplied transaction is benign when it does not use the
reserved opening-balance category, carries no investment link, and is not a
self-transfer. -/
def benignTx (tx : Transaction) : Bool :=
  decide (tx.category ≠ "Saldo Awal" ∧ tx.linkedInvestmentId = none ∧
    ¬(tx.type = .Transfer ∧ tx.toAccountId = some tx.accountId))

/-- Well-formed call for the balance invariant: generated ids are fresh and
caller-supplied transactions are benign. -/
def okOpBalance (s : Store) (op : Op) : Bool :=
  genFresh s op &&
  match op with
  | .addTransaction tx => benignTx tx
  | _ => true

/-- Well-formed call for the opening-balance-uniqueness invariant:
generated ids are fresh and `addTransaction` is never handed the reserved
category. -/
def okOpSaldo (s : Store) (op : Op) : Bool :=
  genFresh s op &&
  match op with
  | .addTransaction tx => decide (tx.category ≠ "Saldo Awal")
  | _ => true

/-- Every operation of the sequence satisfies `ok` in the state it runs in. -/
def OkSeq (ok : Store → Op → Bool) : Store → List Op → Bool
  | _, [] => true
  | s, op :: ops => ok s op && OkSeq ok (applyOp s op) ops

instance (s : Store) : Decidable (BalanceOk s) := by
  unfold BalanceOk; infer_instance

instance (s : Store) : Decidable (SaldoOk s) := by
  unfold SaldoOk; infer_instance

instance (s : Store) : Decidable (SaldoUnique s) := by
  unfold SaldoUnique; infer_instance

/-! ### List-level helper lemmas -/

open List

theorem sortByDateDesc_perm (l : List Transaction) : sortByDateDesc l ~ l :=
  List.perm_insertionSort _ l

theorem signedSum_cons (t : Transaction) (l : List Transaction) (aid : Nat) :
    signedSum (t :: l) aid = txEffect aid t + signedSum l aid := by
  simp [signedSum]

theorem signedSum_perm {l₁ l₂ : List Transaction} (h : l₁ ~ l₂) (aid : Nat) :
    signedSum l₁ aid = signedSum l₂ aid :=
  (h.map (txEffect aid)).sum_eq

theorem signedSum_sort (l : List Transaction) (aid : Nat) :
    signedSum (sortByDateDesc l) aid = signedSum l aid :=
  signedSum_perm (sortByDateDesc_perm l) aid

theorem countP_sort (l : List Transaction) (p : Transaction → Bool) :
    (sortByDateDesc l).countP p = l.countP p :=
  (sortByDateDesc_perm l).countP_eq p

theorem mem_sort {t : Transaction} {l : List Transaction} :
    t ∈ sortByDateDesc l ↔ t ∈ l :=
  (sortByDateDesc_perm l).mem_iff

theorem filter_sort_eq_singleton {l : List Transaction}
    {p : Transaction → Bool} {t : Transaction} (h : l.filter p = [t]) :
    (sortByDateDesc l).filter p = [t] :=
  List.perm_singleton.mp (((sortByDateDesc_perm l).filter p).trans (h ▸ List.Perm.refl _))

theorem signedSum_eq_zero {l : List Transaction} {aid : Nat}
    (h : ∀ t ∈ l, txEffect aid t = 0) : signedSum l aid = 0 := by
  induction l with
  | nil => rfl
  | cons x xs ih =>
    rw [signedSum_cons, h x (List.mem_cons_self x xs),
      ih (fun t ht => h t (List.mem_cons_of_mem x ht))]
    ring

theorem signedSum_filter_split (l : List Transaction) (p : Transaction → Bool) (aid : Nat) :
    signedSum l aid =
      signedSum (l.filter p) aid + signedSum (l.filter (fun t => !p t)) aid := by
  induction l with
  | nil => rfl
  | cons x xs ih =>
    by_cases hx : p x = true <;>
      simp [List.filter_cons, hx, signedSum_cons, ih] <;> ring

theorem foldl_add_int (g : Transaction → Int) (b : Int) (l : List Transaction) :
    l.foldl (fun acc t => acc + g t) b = b + (l.map g).sum := by
  induction l generalizing b with
  | nil => simp
  | cons x xs ih => simp [ih]; ring

theorem filter_of_subpred {l : List Transaction} {p q : Transaction → Bool}
    (h : ∀ x ∈ l, p x = true → q x = true) :
    (l.filter q).filter p = l.filter p := by
  induction l with
  | nil => rfl
  | cons x xs ih =>
    have ih' := ih (fun y hy => h y (List.mem_cons_of_mem x hy))
    by_cases hp : p x = true
    · have hq := h x (List.mem_cons_self x xs) hp
      simp [List.filter_cons, hp, hq, ih']
    · by_cases hq : q x = true <;>
        simp [List.filter_cons, hp, hq, ih']

/-- Decomposition of a list around the first element satisfying `p`,
describing `eraseP` (JS `splice` at `findIndex`) and `updateFirst`
(JS in-place assignment at `findIndex`) simultaneously. -/
theorem find?_decomp {α : Type} {p : α → Bool} {l : List α} {t : α}
    (h : l.find? p = some t) :
    ∃ l₁ l₂, l = l₁ ++ t :: l₂ ∧ (∀ x ∈ l₁, p x = false) ∧ p t = true ∧
      l.eraseP p = l₁ ++ l₂ ∧ ∀ f, updateFirst p f l = l₁ ++ f t :: l₂ := by
  induction l with
  | nil => simp at h
  | cons x xs ih =>
    by_cases hx : p x = true
    · rw [List.find?_cons_of_pos _ hx, Option.some.injEq] at h
      subst h
      refine ⟨[], xs, rfl, by simp, hx, ?_, ?_⟩
      · simp [List.eraseP_cons_of_pos hx]
      · intro f; simp [updateFirst, hx]
    · rw [List.find?_cons_of_neg _ hx] at h
      have hx' : p x = false := by simpa using hx
      obtain ⟨l₁, l₂, hsplit, hl₁, hpt, herase, hupd⟩ := ih h
      refine ⟨x :: l₁, l₂, by simp [hsplit], ?_, hpt, ?_, ?_⟩
      · intro y hy
        rcases List.mem_cons.mp hy with rfl | hy'
        · exact hx'
        · exact hl₁ y hy'
      · simp [List.eraseP_cons_of_neg hx, herase]
      · intro f
        simp [updateFirst, hx', hupd f]

/-! ### Account-level helper lemmas -/

/-- Lookup through a balance-patching map commutes when the patch preserves
account ids. -/
theorem find?_map_idpres {f : Account → Account} (hf : ∀ a, (f a).id = a.id)
    (l : List Account) (n : Nat) :
    (l.map f).find? (fun a => decide (a.id = n)) =
      ((l.find? (fun a => decide (a.id = n))).map f) := by
  rw [List.find?_map]
  have hpf : ((fun a : Account => decide (a.id = n)) ∘ f) =
      (fun a : Account => decide (a.id = n)) := by
    funext a
    simp [Function.comp, hf a]
  rw [hpf]

theorem applyTxToAccount_id (tx : Transaction) (a : Account) :
    (applyTxToAccount tx a).id = a.id := by
  unfold applyTxToAccount
  split
  · cases tx.type <;> rfl
  · split <;> rfl

theorem applyTxToAccount_balance (tx : Transaction) (a : Account)
    (h : ¬(tx.type = .Transfer ∧ tx.toAccountId = some tx.accountId)) :
    (applyTxToAccount tx a).balance = a.balance + txEffect a.id tx := by
  unfold applyTxToAccount txEffect
  by_cases h1 : a.id = tx.accountId
  · cases htype : tx.type with
    | Income => simp [h1, htype]
    | Expense =>
      simp [h1, htype]
      try ring
    | Transfer =>
      have hto : ¬ tx.toAccountId = some tx.accountId := fun hc => h ⟨htype, hc⟩
      simp [h1, htype, hto]
      try ring
  · have h1' : ¬ tx.accountId = a.id := fun hc => h1 hc.symm
    by_cases h2 : tx.toAccountId = some a.id ∧ tx.type = .Transfer
    · simp [h1, h1', h2]
    · simp [h1, h1', h2]

theorem getAccount_addTransaction (s : Store) (tx : Transaction) (n : Nat) :
    getAccount (addTransaction s tx) n =
      (getAccount s n).map (applyTxToAccount tx) := by
  unfold getAccount addTransaction
  exact find?_map_idpres (applyTxToAccount_id tx) s.accounts n

/-! ### Recompute-equals-signed-sum -/

theorem recomputeEffect_eq_txEffect (aid : Nat) (t : Transaction) :
    recomputeEffect aid t = txEffect aid t := rfl

theorem txEffect_income {t : Transaction} (aid : Nat) (h : t.type = .Income) :
    txEffect aid t = if t.accountId = aid then t.amount else 0 := by
  simp [txEffect, h]

/-- Summing only the reserved-category transactions reproduces the base the
recompute reads off the first opening-balance transaction, provided every
reserved transaction is Income and the account has at most one. -/
theorem signedSum_saldoFilter {l : List Transaction} {aid : Nat}
    (hok : ∀ t ∈ l, t.category = "Saldo Awal" → t.type = .Income)
    (huniq : l.countP (isSaldoTx aid) ≤ 1) :
    signedSum (l.filter (fun t => decide (t.category = "Saldo Awal"))) aid =
      (match l.find? (isSaldoTx aid) with
       | some t => t.amount
       | none => 0) := by
  induction l with
  | nil => rfl
  | cons x xs ih =>
    have hok_xs : ∀ t ∈ xs, t.category = "Saldo Awal" → t.type = .Income :=
      fun t ht => hok t (List.mem_cons_of_mem x ht)
    have hcnt := List.countP_cons (isSaldoTx aid) x xs
    by_cases hs : isSaldoTx aid x = true
    · obtain ⟨haid, hcat⟩ : x.accountId = aid ∧ x.category = "Saldo Awal" :=
        of_decide_eq_true hs
      have hxinc : x.type = .Income := hok x (List.mem_cons_self x xs) hcat
      have hzero : xs.countP (isSaldoTx aid) = 0 := by
        have h1 : (x :: xs).countP (isSaldoTx aid) =
            xs.countP (isSaldoTx aid) + 1 := by
          simp [List.countP_cons, hs]
        omega
      have hnone : ∀ t ∈ xs, ¬ isSaldoTx aid t = true :=
        List.countP_eq_zero.mp hzero
      rw [List.find?_cons_of_pos _ hs]
      have hrest : signedSum
          (xs.filter (fun t => decide (t.category = "Saldo Awal"))) aid = 0 := by
        apply signedSum_eq_zero
        intro t ht
        obtain ⟨htx, htc⟩ := List.mem_filter.mp ht
        have htinc := hok_xs t htx (of_decide_eq_true htc)
        have htaid : ¬ t.accountId = aid := by
          intro hc
          have hcontra := hnone t htx
          simp only [isSaldoTx, decide_eq_true_eq] at hcontra
          exact hcontra ⟨hc, of_decide_eq_true htc⟩
        rw [txEffect_income aid htinc, if_neg htaid]
      rw [List.filter_cons_of_pos (by simpa using hcat), signedSum_cons, hrest,
        txEffect_income aid hxinc, if_pos haid]
      ring
    · have hs' : isSaldoTx aid x = false := by simpa using hs
      have huniq_xs : xs.countP (isSaldoTx aid) ≤ 1 := by
        have h1 : (x :: xs).countP (isSaldoTx aid) = xs.countP (isSaldoTx aid) := by
          simp [List.countP_cons, hs']
        omega
      rw [List.find?_cons_of_neg _ hs]
      by_cases hcat : x.category = "Saldo Awal"
      · have hxinc : x.type = .Income := hok x (List.mem_cons_self x xs) hcat
        have hxaid : ¬ x.accountId = aid := by
          rw [isSaldoTx, decide_eq_false_iff_not] at hs'
          exact fun hc => hs' ⟨hc, hcat⟩
        rw [List.filter_cons_of_pos (by simpa using hcat), signedSum_cons,
          txEffect_income aid hxinc, if_neg hxaid, ih hok_xs huniq_xs]
        ring
      · rw [List.filter_cons_of_neg (by simpa using hcat)]
        exact ih hok_xs huniq_xs

/-- The full balance replay of `deleteReceivable` computes exactly the
spec's signed sum, given the opening-balance well-formedness facts. -/
theorem recomputeBalance_eq_signedSum {l : List Transaction} {aid : Nat}
    (hok : ∀ t ∈ l, t.category = "Saldo Awal" → t.type = .Income)
    (huniq : l.countP (isSaldoTx aid) ≤ 1) :
    recomputeBalance l aid = signedSum l aid := by
  unfold recomputeBalance
  rw [foldl_add_int]
  have hneg : (fun t : Transaction => decide (t.category ≠ "Saldo Awal")) =
      (fun t : Transaction => !(decide (t.category = "Saldo Awal"))) := by
    funext t
    simp
  rw [signedSum_filter_split l (fun t => decide (t.category = "Saldo Awal")) aid,
    ← signedSum_saldoFilter hok huniq]
  have hmapsum : ((l.filter (fun t => decide (t.category ≠ "Saldo Awal"))).map
      (recomputeEffect aid)).sum =
      signedSum (l.filter (fun t => !(decide (t.category = "Saldo Awal")))) aid := by
    rw [hneg]
    rfl
  rw [hmapsum]

/-! ### Invariant preservation: addTransaction -/

/-- Combined inductive invariant carried through every operation. -/
def LedgerInv (s : Store) : Prop :=
  BalanceOk s ∧ SaldoOk s ∧ SaldoUnique s ∧ InvLinkOk s

theorem emptyStore_ledgerInv : LedgerInv emptyStore := by
  refine ⟨?_, ?_, ?_, ?_⟩ <;> intro x hx <;> simp [emptyStore] at hx

theorem addTransaction_balanceOk {s : Store} {tx : Transaction}
    (hb : BalanceOk s)
    (h : ¬(tx.type = .Transfer ∧ tx.toAccountId = some tx.accountId)) :
    BalanceOk (addTransaction s tx) := by
  intro a' ha'
  simp only [addTransaction] at ha' ⊢
  obtain ⟨a, ha, rfl⟩ := List.mem_map.mp ha'
  rw [applyTxToAccount_id, applyTxToAccount_balance tx a h,
    signedSum_sort, signedSum_cons, hb a ha]
  ring

theorem addTransaction_saldoOk {s : Store} {tx : Transaction}
    (hs : SaldoOk s)
    (h : tx.category = "Saldo Awal" →
      tx.type = .Income ∧ tx.linkedInvestmentId = none) :
    SaldoOk (addTransaction s tx) := by
  intro t ht hcat
  simp only [addTransaction] at ht
  rcases List.mem_cons.mp (mem_sort.mp ht) with rfl | hmem
  · exact h hcat
  · exact hs t hmem hcat

theorem addTransaction_saldoUnique {s : Store} {tx : Transaction}
    (hu : SaldoUnique s)
    (h : ∀ a ∈ s.accounts, isSaldoTx a.id tx = true →
      s.transactions.countP (isSaldoTx a.id) = 0) :
    SaldoUnique (addTransaction s tx) := by
  intro a' ha'
  simp only [addTransaction] at ha' ⊢
  obtain ⟨a, ha, rfl⟩ := List.mem_map.mp ha'
  rw [applyTxToAccount_id, countP_sort, List.countP_cons]
  by_cases hsa : isSaldoTx a.id tx = true
  · rw [h a ha hsa, hsa]
    simp
  · have hsa' : isSaldoTx a.id tx = false := by simpa using hsa
    rw [hsa']
    simpa using hu a ha

theorem addTransaction_invLinkOk {s : Store} {tx : Transaction}
    (hi : InvLinkOk s)
    (h : ∀ inv ∈ s.investments, isInvLinkTx inv.id tx = false) :
    InvLinkOk (addTransaction s tx) := by
  intro inv hinv
  simp only [addTransaction] at hinv ⊢
  obtain ⟨t, hfil, hrest⟩ := hi inv hinv
  refine ⟨t, ?_, hrest⟩
  apply filter_sort_eq_singleton
  rw [List.filter_cons_of_neg (by simp [h inv hinv]), hfil]

/-! ### Invariant preservation: remaining operations -/

theorem txEffect_zero_of_not_ref {t : Transaction} {n : Nat}
    (h1 : ¬ t.accountId = n) (h2 : ¬ t.toAccountId = some n) :
    txEffect n t = 0 := by
  unfold txEffect
  rw [if_neg h1, if_neg (fun hc => h2 hc.1)]
  simp

theorem idUsed_spec {s : Store} {n : Nat} (h : idUsed s n = false) :
    (∀ a ∈ s.accounts, ¬ a.id = n) ∧
    (∀ i ∈ s.investments, ¬(i.id = n ∨ i.accountId = n ∨ i.platformId = n)) ∧
    (∀ t ∈ s.transactions, ¬(t.accountId = n ∨ t.toAccountId = some n ∨
      t.linkedInvestmentId = some n ∨ t.linkedReceivableId = some n)) := by
  unfold idUsed at h
  simp only [Bool.or_eq_false_iff, List.any_eq_false, decide_eq_true_eq] at h
  obtain ⟨⟨⟨⟨h1, _⟩, h3⟩, _⟩, h5⟩ := h
  exact ⟨h1, h3, h5⟩

theorem addPlatform_inv {s : Store} {newId : Nat} {name : String}
    (hL : LedgerInv s) : LedgerInv (addPlatform s newId name) := hL

theorem updatePlatform_inv {s : Store} {p : Platform}
    (hL : LedgerInv s) : LedgerInv (updatePlatform s p) := hL

theorem deletePlatform_inv {s : Store} {id : Nat}
    (hL : LedgerInv s) : LedgerInv (deletePlatform s id) := by
  unfold deletePlatform
  split
  · exact hL
  · exact hL

theorem updateReceivable_inv {s : Store} {upd : Receivable}
    (hL : LedgerInv s) : LedgerInv (updateReceivable s upd) := hL

theorem updateInvestment_inv {s : Store} {upd : Investment}
    (hL : LedgerInv s) : LedgerInv (updateInvestment s upd) := by
  obtain ⟨hb, hs, hu, hi⟩ := hL
  refine ⟨hb, hs, hu, ?_⟩
  intro inv' hinv'
  simp only [updateInvestment] at hinv'
  obtain ⟨inv, hinv, rfl⟩ := List.mem_map.mp hinv'
  obtain ⟨t, hfil, ht, haid, hamt, hlr⟩ := hi inv hinv
  by_cases hc : inv.id = upd.id
  · rw [if_pos hc]
    exact ⟨t, hfil, ht, haid, hamt, hlr⟩
  · rw [if_neg hc]
    exact ⟨t, hfil, ht, haid, hamt, hlr⟩

theorem updateInvestmentValue_inv {s : Store} {id : Nat} {v : Int}
    (hL : LedgerInv s) : LedgerInv (updateInvestmentValue s id v) := by
  obtain ⟨hb, hs, hu, hi⟩ := hL
  refine ⟨hb, hs, hu, ?_⟩
  intro inv' hinv'
  simp only [updateInvestmentValue] at hinv'
  obtain ⟨inv, hinv, rfl⟩ := List.mem_map.mp hinv'
  obtain ⟨t, hfil, ht, haid, hamt, hlr⟩ := hi inv hinv
  by_cases hc : inv.id = id
  · rw [if_pos hc]
    exact ⟨t, hfil, ht, haid, hamt, hlr⟩
  · rw [if_neg hc]
    exact ⟨t, hfil, ht, haid, hamt, hlr⟩

theorem addAccount_inv {s : Store} {newId : Nat} {name ty : String}
    {ib today : Int} (hL : LedgerInv s) (hfresh : idUsed s newId = false) :
    LedgerInv (addAccount s newId name ty ib today) := by
  obtain ⟨hb, hs, hu, hi⟩ := hL
  obtain ⟨hacc, hinvf, htx⟩ := idUsed_spec hfresh
  have hb1 : BalanceOk { s with accounts := s.accounts ++ [⟨newId, name, ty, 0⟩] } := by
    intro a ha
    rcases List.mem_append.mp ha with hmem | hnew
    · exact hb a hmem
    · have : a = ⟨newId, name, ty, 0⟩ := by simpa using hnew
      subst this
      exact (signedSum_eq_zero (fun t ht => txEffect_zero_of_not_ref
        (fun hc => htx t ht (Or.inl hc))
        (fun hc => htx t ht (Or.inr (Or.inl hc))))).symm
  have hu1 : SaldoUnique { s with accounts := s.accounts ++ [⟨newId, name, ty, 0⟩] } := by
    intro a ha
    rcases List.mem_append.mp ha with hmem | hnew
    · exact hu a hmem
    · have : a = ⟨newId, name, ty, 0⟩ := by simpa using hnew
      subst this
      have : s.transactions.countP (isSaldoTx newId) = 0 := by
        apply List.countP_eq_zero.mpr
        intro t ht
        simp only [isSaldoTx, decide_eq_true_eq, not_and]
        intro hc _
        exact htx t ht (Or.inl hc)
      simp [this]
  have hs1 : SaldoOk { s with accounts := s.accounts ++ [⟨newId, name, ty, 0⟩] } := hs
  have hi1 : InvLinkOk { s with accounts := s.accounts ++ [⟨newId, name, ty, 0⟩] } := hi
  simp only [addAccount]
  split
  · refine ⟨?_, ?_, ?_, ?_⟩
    · exact addTransaction_balanceOk hb1 (by simp)
    · exact addTransaction_saldoOk hs1 (fun _ => ⟨rfl, rfl⟩)
    · apply addTransaction_saldoUnique hu1
      intro a ha hsa
      have haid : a.id = newId := (of_decide_eq_true hsa).1.symm
      rw [haid]
      apply List.countP_eq_zero.mpr
      intro t ht
      simp only [isSaldoTx, decide_eq_true_eq, not_and]
      intro hc _
      exact htx t ht (Or.inl hc)
    · apply addTransaction_invLinkOk hi1
      intro inv _
      simp [isInvLinkTx]
  · exact ⟨hb1, hs1, hu1, hi1⟩

theorem addInvestment_inv {s : Store} {newId : Nat} {name : String}
    {date : Int} {aid pid : Nat} {iv cv : Int} (hL : LedgerInv s)
    (hfresh : idUsed s newId = false) :
    LedgerInv (addInvestment s newId name date aid pid iv cv) := by
  obtain ⟨hb, hs, hu, hi⟩ := hL
  obtain ⟨hacc, hinvf, htx⟩ := idUsed_spec hfresh
  simp only [addInvestment]
  refine ⟨?_, ?_, ?_, ?_⟩
  · exact addTransaction_balanceOk hb (by simp)
  · exact addTransaction_saldoOk hs (fun hcat => by simp at hcat)
  · apply addTransaction_saldoUnique hu
    intro a ha hsa
    have hc := (of_decide_eq_true hsa).2
    simp at hc
  · intro inv' hinv'
    simp only [addTransaction] at hinv' ⊢
    rcases List.mem_append.mp hinv' with hold | hnew
    · obtain ⟨t, hfil, hrest⟩ := hi inv' hold
      refine ⟨t, ?_, hrest⟩
      apply filter_sort_eq_singleton
      have hne : ¬ inv'.id = newId := fun hc => hinvf inv' hold (Or.inl hc)
      rw [List.filter_cons_of_neg, hfil]
      simp only [isInvLinkTx, decide_eq_true_eq]
      intro hcontra
      have h1 := hcontra.1
      simp only [Option.some.injEq] at h1
      exact hne h1.symm
    · have hinv'eq : inv' = ⟨newId, name, date, aid, pid, iv, cv⟩ := by simpa using hnew
      subst hinv'eq
      refine ⟨⟨date, .Expense, aid, none, iv, "Investasi",
        "Modal awal investasi " ++ name, .Investment, some newId, none⟩,
        ?_, rfl, rfl, rfl, rfl⟩
      apply filter_sort_eq_singleton
      rw [List.filter_cons_of_pos (by simp [isInvLinkTx])]
      have hnil : s.transactions.filter (isInvLinkTx newId) = [] := by
        apply List.filter_eq_nil_iff.mpr
        intro t ht
        simp only [isInvLinkTx, decide_eq_true_eq, not_and]
        intro hc
        exact absurd (htx t ht) (by simp [hc])
      rw [hnil]

theorem addReceivable_inv {s : Store} {newId : Nat} {debtor : String}
    {amount due : Int} {aid : Nat} {today : Int} (hL : LedgerInv s) :
    LedgerInv (addReceivable s newId debtor amount due aid today) := by
  obtain ⟨hb, hs, hu, hi⟩ := hL
  simp only [addReceivable]
  refine ⟨?_, ?_, ?_, ?_⟩
  · exact addTransaction_balanceOk hb (by simp)
  · exact addTransaction_saldoOk hs (fun hcat => by simp at hcat)
  · apply addTransaction_saldoUnique hu
    intro a ha hsa
    have hc := (of_decide_eq_true hsa).2
    simp at hc
  · apply addTransaction_invLinkOk hi
    intro inv _
    simp [isInvLinkTx]

theorem markReceivableAsPaid_inv {s : Store} {id aid : Nat} {today : Int}
    (hL : LedgerInv s) : LedgerInv (markReceivableAsPaid s id aid today) := by
  obtain ⟨hb, hs, hu, hi⟩ := hL
  cases hfind : s.receivables.find? (fun r => decide (r.id = id)) with
  | none =>
    simp only [markReceivableAsPaid, hfind]
    exact ⟨hb, hs, hu, hi⟩
  | some r =>
    simp only [markReceivableAsPaid, hfind]
    refine ⟨?_, ?_, ?_, ?_⟩
    · exact addTransaction_balanceOk hb (by simp)
    · exact addTransaction_saldoOk hs (fun hcat => by simp at hcat)
    · apply addTransaction_saldoUnique hu
      intro a ha hsa
      have hc := (of_decide_eq_true hsa).2
      simp at hc
    · apply addTransaction_invLinkOk hi
      intro inv _
      simp [isInvLinkTx]

theorem txEffect_expense {t : Transaction} (aid : Nat) (h : t.type = .Expense) :
    txEffect aid t = if t.accountId = aid then -t.amount else 0 := by
  simp [txEffect, h]

theorem signedSum_append (l₁ l₂ : List Transaction) (aid : Nat) :
    signedSum (l₁ ++ l₂) aid = signedSum l₁ aid + signedSum l₂ aid := by
  simp [signedSum]

theorem isAccountInUse_false_spec {s : Store} {id : Nat}
    (h : isAccountInUse s id = false) :
    (∀ t ∈ s.transactions,
      (t.accountId = id ∨ t.toAccountId = some id) → t.category = "Saldo Awal") ∧
    (∀ i ∈ s.investments, ¬ i.accountId = id) := by
  unfold isAccountInUse at h
  simp only [Bool.or_eq_false_iff, List.any_eq_false, decide_eq_true_eq] at h
  obtain ⟨h1, h2⟩ := h
  constructor
  · intro t ht href
    by_contra hcat
    exact h1 t ht ⟨href, hcat⟩
  · exact h2

theorem deleteAccount_inv {s : Store} {id : Nat}
    (hL : LedgerInv s) : LedgerInv (deleteAccount s id) := by
  obtain ⟨hb, hs, hu, hi⟩ := hL
  unfold deleteAccount
  split
  · exact ⟨hb, hs, hu, hi⟩
  · rename_i hguard
    have hfalse : isAccountInUse s id = false := by simpa using hguard
    obtain ⟨href, hinvf⟩ := isAccountInUse_false_spec hfalse
    refine ⟨?_, ?_, ?_, ?_⟩
    · intro a ha
      obtain ⟨hmem, hne⟩ := List.mem_filter.mp ha
      have hane : ¬ a.id = id := by simpa using hne
      show a.balance = signedSum (s.transactions.filter
        (fun t => decide (¬(t.accountId = id ∧ t.category = "Saldo Awal")))) a.id
      rw [hb a hmem]
      have hzero : signedSum (s.transactions.filter
          (fun t => !(decide (¬(t.accountId = id ∧ t.category = "Saldo Awal"))))) a.id = 0 := by
        apply signedSum_eq_zero
        intro t ht
        obtain ⟨htx, hmatch⟩ := List.mem_filter.mp ht
        have hmm : t.accountId = id ∧ t.category = "Saldo Awal" := by
          simpa using hmatch
        have htinc : t.type = .Income := (hs t htx hmm.2).1
        have hne2 : ¬ t.accountId = a.id := fun hc => hane (hc ▸ hmm.1)
        rw [txEffect_income a.id htinc, if_neg hne2]
      have hsplit := signedSum_filter_split s.transactions
        (fun t => decide (¬(t.accountId = id ∧ t.category = "Saldo Awal"))) a.id
      omega
    · intro t ht hcat
      exact hs t (List.mem_filter.mp ht).1 hcat
    · intro a ha
      obtain ⟨hmem, _⟩ := List.mem_filter.mp ha
      exact le_trans ((List.filter_sublist _).countP_le _) (hu a hmem)
    · intro inv hinv
      obtain ⟨t, hfil, hrest⟩ := hi inv hinv
      refine ⟨t, ?_, hrest⟩
      rw [filter_of_subpred, hfil]
      intro x hx hpx
      obtain ⟨hlink, _⟩ : x.linkedInvestmentId = some inv.id ∧
          x.source = .Investment := by simpa [isInvLinkTx] using hpx
      have hxcat : ¬ x.category = "Saldo Awal" := by
        intro hc
        have := (hs x hx hc).2
        rw [this] at hlink
        simp at hlink
      simp [hxcat]

theorem deleteReceivable_inv {s : Store} {id : Nat}
    (hL : LedgerInv s) : LedgerInv (deleteReceivable s id) := by
  obtain ⟨hb, hs, hu, hi⟩ := hL
  have hsub : ∀ t ∈ s.transactions.filter
      (fun t => decide (t.linkedReceivableId ≠ some id)), t ∈ s.transactions :=
    fun t ht => (List.mem_filter.mp ht).1
  have hok' : ∀ t ∈ s.transactions.filter
      (fun t => decide (t.linkedReceivableId ≠ some id)),
      t.category = "Saldo Awal" → t.type = .Income :=
    fun t ht hcat => (hs t (hsub t ht) hcat).1
  refine ⟨?_, ?_, ?_, ?_⟩
  · intro a' ha'
    simp only [deleteReceivable] at ha' ⊢
    obtain ⟨a, ha, rfl⟩ := List.mem_map.mp ha'
    show recomputeBalance _ a.id = signedSum _ a.id
    rw [recomputeBalance_eq_signedSum hok'
      (le_trans ((List.filter_sublist _).countP_le _) (hu a ha)), signedSum_sort]
  · intro t ht hcat
    simp only [deleteReceivable] at ht
    exact hs t (hsub t (mem_sort.mp ht)) hcat
  · intro a' ha'
    simp only [deleteReceivable] at ha' ⊢
    obtain ⟨a, ha, rfl⟩ := List.mem_map.mp ha'
    show ((sortByDateDesc _).countP (isSaldoTx a.id)) ≤ 1
    rw [countP_sort]
    exact le_trans ((List.filter_sublist _).countP_le _) (hu a ha)
  · intro inv hinv
    simp only [deleteReceivable] at hinv ⊢
    obtain ⟨t, hfil, ht, haid, hamt, hlr⟩ := hi inv hinv
    refine ⟨t, ?_, ht, haid, hamt, hlr⟩
    apply filter_sort_eq_singleton
    rw [filter_of_subpred, hfil]
    intro x hx hpx
    have hxt : x = t := by
      have : x ∈ s.transactions.filter (isInvLinkTx inv.id) :=
        List.mem_filter.mpr ⟨hx, hpx⟩
      rw [hfil] at this
      simpa using this
    subst hxt
    simp [hlr]

theorem signedSum_filter_sort (l : List Transaction) (p : Transaction → Bool) (aid : Nat) :
    signedSum ((sortByDateDesc l).filter p) aid = signedSum (l.filter p) aid :=
  signedSum_perm ((sortByDateDesc_perm l).filter p) aid

theorem refund_cancels {e r : Transaction} {aid aacc : Nat} {iv : Int}
    (hetype : e.type = .Expense) (heaid : e.accountId = aacc) (heamt : e.amount = iv)
    (hrtype : r.type = .Income) (hraid : r.accountId = aacc) (hramt : r.amount = iv) :
    txEffect aid r + txEffect aid e = 0 := by
  rw [txEffect_income aid hrtype, txEffect_expense aid hetype,
    hraid, heaid, hramt, heamt]
  by_cases h : aacc = aid <;> simp [h]

theorem deleteInvestment_inv {s : Store} {id : Nat} {today : Int}
    (hL : LedgerInv s) : LedgerInv (deleteInvestment s id today) := by
  obtain ⟨hb, hs, hu, hi⟩ := hL
  cases hfind : s.investments.find? (fun inv => decide (inv.id = id)) with
  | none =>
    simp only [deleteInvestment, hfind]
    exact ⟨hb, hs, hu, hi⟩
  | some inv0 =>
    have hmem0 : inv0 ∈ s.investments := List.mem_of_find?_eq_some hfind
    have hid0 : inv0.id = id := by simpa using List.find?_some hfind
    obtain ⟨e, hfil, hetype, heaid, heamt, helr⟩ := hi inv0 hmem0
    rw [hid0] at hfil
    simp only [deleteInvestment, hfind]
    have hqp : (fun t : Transaction =>
        !(decide (¬(t.linkedInvestmentId = some id ∧ t.source = .Investment)))) =
        isInvLinkTx id := by
      funext t
      simp [isInvLinkTx]
    refine ⟨?_, ?_, ?_, ?_⟩
    · intro a' ha'
      simp only [addTransaction] at ha' ⊢
      obtain ⟨a, ha, rfl⟩ := List.mem_map.mp ha'
      rw [applyTxToAccount_id, applyTxToAccount_balance _ a (by simp)]
      rw [signedSum_filter_sort, List.filter_cons_of_neg (by simp)]
      have hsplit := signedSum_filter_split s.transactions
        (fun t => decide (¬(t.linkedInvestmentId = some id ∧
          t.source = .Investment))) a.id
      rw [hqp, hfil, signedSum_cons] at hsplit
      have hcancel : txEffect a.id
          ⟨today, .Income, inv0.accountId, none, inv0.initialValue,
            "Pengembalian Investasi",
            "Pengembalian modal investasi " ++ inv0.name, .Investment,
            some id, none⟩ + txEffect a.id e = 0 :=
        refund_cancels hetype heaid heamt rfl rfl rfl
      rw [hb a ha]
      simp only [signedSum, List.map_nil, List.sum_nil, add_zero] at *
      omega
    · intro t ht hcat
      simp only [addTransaction] at ht
      have ht' := List.mem_filter.mp ht
      rcases List.mem_cons.mp (mem_sort.mp ht'.1) with rfl | hmem
      · simp at hcat
      · exact hs t hmem hcat
    · intro a' ha'
      simp only [addTransaction] at ha' ⊢
      obtain ⟨a, ha, rfl⟩ := List.mem_map.mp ha'
      rw [applyTxToAccount_id]
      refine le_trans ((List.filter_sublist _).countP_le _) ?_
      rw [countP_sort, List.countP_cons]
      have : isSaldoTx a.id ⟨today, .Income, inv0.accountId, none,
          inv0.initialValue, "Pengembalian Investasi",
          "Pengembalian modal investasi " ++ inv0.name, .Investment,
          some id, none⟩ = false := by
        simp [isSaldoTx]
      rw [this]
      simpa using hu a ha
    · intro inv' hinv'
      simp only [addTransaction] at hinv' ⊢
      obtain ⟨hmem', hne'⟩ := List.mem_filter.mp hinv'
      have hne'' : ¬ inv'.id = id := by simpa using hne'
      obtain ⟨t', hfil', hrest'⟩ := hi inv' hmem'
      refine ⟨t', ?_, hrest'⟩
      rw [filter_of_subpred]
      · apply filter_sort_eq_singleton
        rw [List.filter_cons_of_neg, hfil']
        simp only [isInvLinkTx, decide_eq_true_eq]
        intro hcontra
        have h1 := hcontra.1
        simp only [Option.some.injEq] at h1
        exact hne'' h1.symm
      · intro x hx hpx
        obtain ⟨hlink, _⟩ : x.linkedInvestmentId = some inv'.id ∧
            x.source = .Investment := by simpa [isInvLinkTx] using hpx
        simp only [decide_eq_true_eq]
        intro hcontra
        rw [hlink] at hcontra
        exact hne'' (by simpa using hcontra.1)

theorem countP_eraseP_le (p q : Transaction → Bool) (l : List Transaction) :
    (l.eraseP q).countP p ≤ l.countP p :=
  (List.eraseP_sublist l).countP_le p

theorem patch_id (accData : Account) (d : Int) (a : Account) :
    (if a.id = accData.id then
      { a with
        name := accData.name
        type := accData.type
        balance := a.balance + d }
    else a).id = a.id := by
  split <;> rfl

theorem updateAccount_inv {s : Store} {accData : Account} {nib today : Int}
    (hL : LedgerInv s) : LedgerInv (updateAccount s accData nib today) := by
  obtain ⟨hb, hs, hu, hi⟩ := hL
  cases hfind : s.transactions.find? (isSaldoTx accData.id) with
  | some t0 =>
    obtain ⟨l₁, l₂, hsplitL, hl₁, hpt0, herase, hupd⟩ := find?_decomp hfind
    have ht0mem : t0 ∈ s.transactions := by
      rw [hsplitL]
      exact List.mem_append_right l₁ (List.mem_cons_self t0 l₂)
    obtain ⟨ht0aid, ht0cat⟩ : t0.accountId = accData.id ∧
        t0.category = "Saldo Awal" := of_decide_eq_true hpt0
    obtain ⟨ht0inc, ht0link⟩ := hs t0 ht0mem ht0cat
    have hmemTx : ∀ t, t ∈ l₁ ∨ t ∈ l₂ → t ∈ s.transactions := by
      intro t ht
      rw [hsplitL]
      rcases ht with h1 | h2
      · exact List.mem_append_left _ h1
      · exact List.mem_append_right _ (List.mem_cons_of_mem t0 h2)
    have hsum_full : ∀ b, signedSum s.transactions b =
        signedSum l₁ b + (txEffect b t0 + signedSum l₂ b) := by
      intro b
      rw [hsplitL, signedSum_append, signedSum_cons]
    have heff_t0 : ∀ b, txEffect b t0 = if accData.id = b then t0.amount else 0 := by
      intro b
      rw [txEffect_income b ht0inc, ht0aid]
    have hnot0 : ∀ iid, isInvLinkTx iid t0 = false := by
      intro iid
      simp [isInvLinkTx, ht0link]
    simp only [updateAccount, hfind]
    by_cases hnib : nib = 0
    · rw [if_pos hnib, herase]
      refine ⟨?_, ?_, ?_, ?_⟩
      · intro a' ha'
        obtain ⟨a, ha, rfl⟩ := List.mem_map.mp ha'
        have hbal := hb a ha
        have he1 := hsum_full a.id
        have he2 := heff_t0 a.id
        by_cases hc : a.id = accData.id
        · rw [if_pos hc]
          show a.balance + (nib - t0.amount) =
            signedSum (sortByDateDesc (l₁ ++ l₂)) a.id
          rw [signedSum_sort, signedSum_append]
          rw [if_pos hc.symm] at he2
          omega
        · rw [if_neg hc]
          show a.balance = signedSum (sortByDateDesc (l₁ ++ l₂)) a.id
          rw [signedSum_sort, signedSum_append]
          rw [if_neg (fun hcc => hc hcc.symm)] at he2
          omega
      · intro t ht hcat
        exact hs t (hmemTx t (List.mem_append.mp (mem_sort.mp ht))) hcat
      · intro a' ha'
        obtain ⟨a, ha, rfl⟩ := List.mem_map.mp ha'
        rw [patch_id]
        show (sortByDateDesc (l₁ ++ l₂)).countP (isSaldoTx a.id) ≤ 1
        rw [countP_sort, ← herase]
        exact le_trans (countP_eraseP_le _ _ _) (hu a ha)
      · intro inv hinv
        obtain ⟨t', hfil', hrest'⟩ := hi inv hinv
        refine ⟨t', ?_, hrest'⟩
        apply filter_sort_eq_singleton
        have hstep : (l₁ ++ l₂).filter (isInvLinkTx inv.id) =
            (l₁ ++ t0 :: l₂).filter (isInvLinkTx inv.id) := by
          rw [List.filter_append, List.filter_append,
            List.filter_cons_of_neg (by simp [hnot0])]
        rw [hstep, ← hsplitL, hfil']
    · rw [if_neg hnib, hupd]
      refine ⟨?_, ?_, ?_, ?_⟩
      · intro a' ha'
        obtain ⟨a, ha, rfl⟩ := List.mem_map.mp ha'
        have hbal := hb a ha
        have he1 := hsum_full a.id
        have he2 := heff_t0 a.id
        have he3 : txEffect a.id { t0 with amount := nib } =
            if accData.id = a.id then nib else 0 := by
          have hty : ({ t0 with amount := nib } : Transaction).type = .Income := ht0inc
          rw [txEffect_income a.id hty]
          show (if t0.accountId = a.id then nib else 0) = _
          rw [ht0aid]
        by_cases hc : a.id = accData.id
        · rw [if_pos hc]
          show a.balance + (nib - t0.amount) =
            signedSum (sortByDateDesc (l₁ ++ { t0 with amount := nib } :: l₂)) a.id
          rw [signedSum_sort, signedSum_append, signedSum_cons]
          rw [if_pos hc.symm] at he2 he3
          omega
        · rw [if_neg hc]
          show a.balance =
            signedSum (sortByDateDesc (l₁ ++ { t0 with amount := nib } :: l₂)) a.id
          rw [signedSum_sort, signedSum_append, signedSum_cons]
          rw [if_neg (fun hcc => hc hcc.symm)] at he2 he3
          omega
      · intro t ht hcat
        rcases List.mem_append.mp (mem_sort.mp ht) with h1 | h2
        · exact hs t (hmemTx t (Or.inl h1)) hcat
        · rcases List.mem_cons.mp h2 with rfl | h3
          · exact ⟨ht0inc, ht0link⟩
          · exact hs t (hmemTx t (Or.inr h3)) hcat
      · intro a' ha'
        obtain ⟨a, ha, rfl⟩ := List.mem_map.mp ha'
        rw [patch_id]
        show (sortByDateDesc (l₁ ++ { t0 with amount := nib } :: l₂)).countP
          (isSaldoTx a.id) ≤ 1
        have hsame : isSaldoTx a.id { t0 with amount := nib } =
            isSaldoTx a.id t0 := rfl
        have hcnt : s.transactions.countP (isSaldoTx a.id) =
            l₁.countP (isSaldoTx a.id) + l₂.countP (isSaldoTx a.id) +
              (if isSaldoTx a.id t0 = true then 1 else 0) := by
          rw [hsplitL, List.countP_append, List.countP_cons]
          omega
        rw [countP_sort, List.countP_append, List.countP_cons, hsame]
        have := hu a ha
        omega
      · intro inv hinv
        obtain ⟨t', hfil', hrest'⟩ := hi inv hinv
        refine ⟨t', ?_, hrest'⟩
        apply filter_sort_eq_singleton
        have hnotf : isInvLinkTx inv.id { t0 with amount := nib } = false :=
          hnot0 inv.id
        have hstep : (l₁ ++ { t0 with amount := nib } :: l₂).filter
            (isInvLinkTx inv.id) = (l₁ ++ t0 :: l₂).filter (isInvLinkTx inv.id) := by
          rw [List.filter_append, List.filter_append,
            List.filter_cons_of_neg (by simp [hnotf]),
            List.filter_cons_of_neg (by simp [hnot0])]
        rw [hstep, ← hsplitL, hfil']
  | none =>
    have hnone : ∀ t ∈ s.transactions, ¬ isSaldoTx accData.id t = true :=
      List.find?_eq_none.mp hfind
    have hcnt0 : s.transactions.countP (isSaldoTx accData.id) = 0 :=
      List.countP_eq_zero.mpr hnone
    simp only [updateAccount, hfind]
    by_cases hnib : nib = 0
    · rw [if_neg (by simpa using hnib)]
      refine ⟨?_, ?_, ?_, ?_⟩
      · intro a' ha'
        obtain ⟨a, ha, rfl⟩ := List.mem_map.mp ha'
        have hbal := hb a ha
        by_cases hc : a.id = accData.id
        · rw [if_pos hc]
          show a.balance + (nib - 0) =
            signedSum (sortByDateDesc s.transactions) a.id
          rw [signedSum_sort]
          omega
        · rw [if_neg hc]
          show a.balance = signedSum (sortByDateDesc s.transactions) a.id
          rw [signedSum_sort]
          omega
      · intro t ht hcat
        exact hs t (mem_sort.mp ht) hcat
      · intro a' ha'
        obtain ⟨a, ha, rfl⟩ := List.mem_map.mp ha'
        rw [patch_id]
        show (sortByDateDesc s.transactions).countP (isSaldoTx a.id) ≤ 1
        rw [countP_sort]
        exact hu a ha
      · intro inv hinv
        obtain ⟨t', hfil', hrest'⟩ := hi inv hinv
        exact ⟨t', filter_sort_eq_singleton hfil', hrest'⟩
    · rw [if_pos hnib]
      refine ⟨?_, ?_, ?_, ?_⟩
      · intro a' ha'
        obtain ⟨a, ha, rfl⟩ := List.mem_map.mp ha'
        have hbal := hb a ha
        by_cases hc : a.id = accData.id
        · rw [if_pos hc]
          show a.balance + (nib - 0) = signedSum (sortByDateDesc
            (⟨today, .Income, accData.id, none, nib, "Saldo Awal",
              "Saldo awal untuk rekening " ++ accData.name, .Manual, none,
              none⟩ :: s.transactions)) a.id
          rw [signedSum_sort, signedSum_cons, txEffect_income a.id rfl]
          show a.balance + (nib - 0) =
            (if accData.id = a.id then nib else 0) + signedSum s.transactions a.id
          rw [if_pos hc.symm]
          omega
        · rw [if_neg hc]
          show a.balance = signedSum (sortByDateDesc
            (⟨today, .Income, accData.id, none, nib, "Saldo Awal",
              "Saldo awal untuk rekening " ++ accData.name, .Manual, none,
              none⟩ :: s.transactions)) a.id
          rw [signedSum_sort, signedSum_cons, txEffect_income a.id rfl]
          show a.balance =
            (if accData.id = a.id then nib else 0) + signedSum s.transactions a.id
          rw [if_neg (fun hcc => hc hcc.symm)]
          omega
      · intro t ht hcat
        rcases List.mem_cons.mp (mem_sort.mp ht) with rfl | h2
        · exact ⟨rfl, rfl⟩
        · exact hs t h2 hcat
      · intro a' ha'
        obtain ⟨a, ha, rfl⟩ := List.mem_map.mp ha'
        rw [patch_id]
        show (sortByDateDesc
          (⟨today, .Income, accData.id, none, nib, "Saldo Awal",
            "Saldo awal untuk rekening " ++ accData.name, .Manual, none,
            none⟩ :: s.transactions)).countP (isSaldoTx a.id) ≤ 1
        rw [countP_sort, List.countP_cons]
        by_cases hc : a.id = accData.id
        · have hone : isSaldoTx a.id (⟨today, .Income, accData.id, none, nib,
              "Saldo Awal", "Saldo awal untuk rekening " ++ accData.name,
              .Manual, none, none⟩ : Transaction) = true := by
            simp [isSaldoTx, hc]
          rw [hone]
          have hz : s.transactions.countP (isSaldoTx a.id) = 0 := by
            rw [hc]; exact hcnt0
          simp [hz]
        · have hzero : isSaldoTx a.id (⟨today, .Income, accData.id, none, nib,
              "Saldo Awal", "Saldo awal untuk rekening " ++ accData.name,
              .Manual, none, none⟩ : Transaction) = false := by
            simp only [isSaldoTx, decide_eq_false_iff_not, not_and]
            intro hcc
            exact absurd hcc.symm hc
          rw [hzero]
          simpa using hu a ha
      · intro inv hinv
        obtain ⟨t', hfil', hrest'⟩ := hi inv hinv
        refine ⟨t', ?_, hrest'⟩
        apply filter_sort_eq_singleton
        rw [List.filter_cons_of_neg (by simp [isInvLinkTx]), hfil']

/-! ### Master induction over operation sequences -/

theorem applyOp_inv {s : Store} {op : Op} (hL : LedgerInv s)
    (hok : okOpBalance s op = true) : LedgerInv (applyOp s op) := by
  cases op with
  | addTransaction tx =>
    simp only [okOpBalance, genFresh, Bool.true_and, benignTx,
      decide_eq_true_eq] at hok
    obtain ⟨hcat, hlink, hself⟩ := hok
    obtain ⟨hb, hs, hu, hi⟩ := hL
    exact ⟨addTransaction_balanceOk hb hself,
      addTransaction_saldoOk hs (fun h => absurd h hcat),
      addTransaction_saldoUnique hu
        (fun a ha hsa => absurd (of_decide_eq_true hsa).2 hcat),
      addTransaction_invLinkOk hi (fun inv hinv => by simp [isInvLinkTx, hlink])⟩
  | addAccount newId name ty ib today =>
    simp only [okOpBalance, genFresh, Bool.and_true, Bool.not_eq_true'] at hok
    exact addAccount_inv hL hok
  | updateAccount accData nib today => exact updateAccount_inv hL
  | deleteAccount id => exact deleteAccount_inv hL
  | addPlatform newId name => exact addPlatform_inv hL
  | updatePlatform p => exact updatePlatform_inv hL
  | deletePlatform id => exact deletePlatform_inv hL
  | addInvestment newId name date aid pid iv cv =>
    simp only [okOpBalance, genFresh, Bool.and_true, Bool.not_eq_true'] at hok
    exact addInvestment_inv hL hok
  | updateInvestment upd => exact updateInvestment_inv hL
  | updateInvestmentValue id v => exact updateInvestmentValue_inv hL
  | deleteInvestment id today => exact deleteInvestment_inv hL
  | addReceivable newId debtor amount due aid today => exact addReceivable_inv hL
  | updateReceivable upd => exact updateReceivable_inv hL
  | deleteReceivable id => exact deleteReceivable_inv hL
  | markReceivableAsPaid id aid today => exact markReceivableAsPaid_inv hL

theorem runOps_inv (ops : List Op) (s : Store) (hL : LedgerInv s)
    (hok : OkSeq okOpBalance s ops = true) : LedgerInv (runOps s ops) := by
  induction ops generalizing s with
  | nil => exact hL
  | cons op rest ih =>
    simp only [OkSeq, Bool.and_eq_true] at hok
    exact ih (applyOp s op) (applyOp_inv hL hok.1) hok.2

/-! ### Uniqueness-only induction (for the reserved-category invariant) -/

theorem addAccount_saldoUnique {s : Store} {newId : Nat} {name ty : String}
    {ib today : Int} (hu : SaldoUnique s) (hfresh : idUsed s newId = false) :
    SaldoUnique (addAccount s newId name ty ib today) := by
  obtain ⟨hacc, hinvf, htx⟩ := idUsed_spec hfresh
  have hu1 : SaldoUnique { s with accounts := s.accounts ++ [⟨newId, name, ty, 0⟩] } := by
    intro a ha
    rcases List.mem_append.mp ha with hmem | hnew
    · exact hu a hmem
    · have : a = ⟨newId, name, ty, 0⟩ := by simpa using hnew
      subst this
      have : s.transactions.countP (isSaldoTx newId) = 0 := by
        apply List.countP_eq_zero.mpr
        intro t ht
        simp only [isSaldoTx, decide_eq_true_eq, not_and]
        intro hc _
        exact htx t ht (Or.inl hc)
      simp [this]
  simp only [addAccount]
  split
  · apply addTransaction_saldoUnique hu1
    intro a ha hsa
    have haid : a.id = newId := (of_decide_eq_true hsa).1.symm
    rw [haid]
    apply List.countP_eq_zero.mpr
    intro t ht
    simp only [isSaldoTx, decide_eq_true_eq, not_and]
    intro hc _
    exact htx t ht (Or.inl hc)
  · exact hu1

theorem updateAccount_saldoUnique {s : Store} {accData : Account}
    {nib today : Int} (hu : SaldoUnique s) :
    SaldoUnique (updateAccount s accData nib today) := by
  cases hfind : s.transactions.find? (isSaldoTx accData.id) with
  | some t0 =>
    obtain ⟨l₁, l₂, hsplitL, hl₁, hpt0, herase, hupd⟩ := find?_decomp hfind
    simp only [updateAccount, hfind]
    by_cases hnib : nib = 0
    · rw [if_pos hnib, herase]
      intro a' ha'
      obtain ⟨a, ha, rfl⟩ := List.mem_map.mp ha'
      rw [patch_id]
      show (sortByDateDesc (l₁ ++ l₂)).countP (isSaldoTx a.id) ≤ 1
      rw [countP_sort, ← herase]
      exact le_trans (countP_eraseP_le _ _ _) (hu a ha)
    · rw [if_neg hnib, hupd]
      intro a' ha'
      obtain ⟨a, ha, rfl⟩ := List.mem_map.mp ha'
      rw [patch_id]
      show (sortByDateDesc (l₁ ++ { t0 with amount := nib } :: l₂)).countP
        (isSaldoTx a.id) ≤ 1
      have hsame : isSaldoTx a.id { t0 with amount := nib } =
          isSaldoTx a.id t0 := rfl
      have hcnt : s.transactions.countP (isSaldoTx a.id) =
          l₁.countP (isSaldoTx a.id) + l₂.countP (isSaldoTx a.id) +
            (if isSaldoTx a.id t0 = true then 1 else 0) := by
        rw [hsplitL, List.countP_append, List.countP_cons]
        omega
      rw [countP_sort, List.countP_append, List.countP_cons, hsame]
      have := hu a ha
      omega
  | none =>
    have hcnt0 : s.transactions.countP (isSaldoTx accData.id) = 0 :=
      List.countP_eq_zero.mpr (List.find?_eq_none.mp hfind)
    simp only [updateAccount, hfind]
    by_cases hnib : nib = 0
    · rw [if_neg (by simpa using hnib)]
      intro a' ha'
      obtain ⟨a, ha, rfl⟩ := List.mem_map.mp ha'
      rw [patch_id]
      show (sortByDateDesc s.transactions).countP (isSaldoTx a.id) ≤ 1
      rw [countP_sort]
      exact hu a ha
    · rw [if_pos hnib]
      intro a' ha'
      obtain ⟨a, ha, rfl⟩ := List.mem_map.mp ha'
      rw [patch_id]
      show (sortByDateDesc
        (⟨today, .Income, accData.id, none, nib, "Saldo Awal",
          "Saldo awal untuk rekening " ++ accData.name, .Manual, none,
          none⟩ :: s.transactions)).countP (isSaldoTx a.id) ≤ 1
      rw [countP_sort, List.countP_cons]
      by_cases hc : a.id = accData.id
      · have hone : isSaldoTx a.id (⟨today, .Income, accData.id, none, nib,
            "Saldo Awal", "Saldo awal untuk rekening " ++ accData.name,
            .Manual, none, none⟩ : Transaction) = true := by
          simp [isSaldoTx, hc]
        rw [hone]
        have hz : s.transactions.countP (isSaldoTx a.id) = 0 := by
          rw [hc]; exact hcnt0
        simp [hz]
      · have hzero : isSaldoTx a.id (⟨today, .Income, accData.id, none, nib,
            "Saldo Awal", "Saldo awal untuk rekening " ++ accData.name,
            .Manual, none, none⟩ : Transaction) = false := by
          simp only [isSaldoTx, decide_eq_false_iff_not, not_and]
          intro hcc
          exact absurd hcc.symm hc
        rw [hzero]
        simpa using hu a ha

theorem applyOp_saldoUnique {s : Store} {op : Op} (hu : SaldoUnique s)
    (hok : okOpSaldo s op = true) : SaldoUnique (applyOp s op) := by
  cases op with
  | addTransaction tx =>
    simp only [okOpSaldo, genFresh, Bool.true_and, decide_eq_true_eq] at hok
    exact addTransaction_saldoUnique hu
      (fun a ha hsa => absurd (of_decide_eq_true hsa).2 hok)
  | addAccount newId name ty ib today =>
    simp only [okOpSaldo, genFresh, Bool.and_true, Bool.not_eq_true'] at hok
    exact addAccount_saldoUnique hu hok
  | updateAccount accData nib today => exact updateAccount_saldoUnique hu
  | deleteAccount id =>
    show SaldoUnique (deleteAccount s id)
    unfold deleteAccount
    split
    · exact hu
    · intro a ha
      obtain ⟨hmem, _⟩ := List.mem_filter.mp ha
      exact le_trans ((List.filter_sublist _).countP_le _) (hu a hmem)
  | addPlatform newId name => exact hu
  | updatePlatform p => exact hu
  | deletePlatform id =>
    show SaldoUnique (deletePlatform s id)
    unfold deletePlatform
    split <;> exact hu
  | addInvestment newId name date aid pid iv cv =>
    show SaldoUnique (addInvestment s newId name date aid pid iv cv)
    simp only [addInvestment]
    apply addTransaction_saldoUnique hu
    intro a ha hsa
    have hc := (of_decide_eq_true hsa).2
    simp at hc
  | updateInvestment upd => exact hu
  | updateInvestmentValue id v => exact hu
  | deleteInvestment id today =>
    show SaldoUnique (deleteInvestment s id today)
    cases hfind : s.investments.find? (fun inv => decide (inv.id = id)) with
    | none => simp only [deleteInvestment, hfind]; exact hu
    | some inv0 =>
      simp only [deleteInvestment, hfind]
      intro a' ha'
      simp only [addTransaction] at ha' ⊢
      obtain ⟨a, ha, rfl⟩ := List.mem_map.mp ha'
      rw [applyTxToAccount_id]
      refine le_trans ((List.filter_sublist _).countP_le _) ?_
      rw [countP_sort, List.countP_cons]
      have hz : isSaldoTx a.id ⟨today, .Income, inv0.accountId, none,
          inv0.initialValue, "Pengembalian Investasi",
          "Pengembalian modal investasi " ++ inv0.name, .Investment,
          some id, none⟩ = false := by
        simp [isSaldoTx]
      rw [hz]
      simpa using hu a ha
  | addReceivable newId debtor amount due aid today =>
    show SaldoUnique (addReceivable s newId debtor amount due aid today)
    simp only [addReceivable]
    apply addTransaction_saldoUnique hu
    intro a ha hsa
    have hc := (of_decide_eq_true hsa).2
    simp at hc
  | updateReceivable upd => exact hu
  | deleteReceivable id =>
    show SaldoUnique (deleteReceivable s id)
    intro a' ha'
    simp only [deleteReceivable] at ha' ⊢
    obtain ⟨a, ha, rfl⟩ := List.mem_map.mp ha'
    show ((sortByDateDesc _).countP (isSaldoTx a.id)) ≤ 1
    rw [countP_sort]
    exact le_trans ((List.filter_sublist _).countP_le _) (hu a ha)
  | markReceivableAsPaid id aid today =>
    show SaldoUnique (markReceivableAsPaid s id aid today)
    cases hfind : s.receivables.find? (fun r => decide (r.id = id)) with
    | none => simp only [markReceivableAsPaid, hfind]; exact hu
    | some r =>
      simp only [markReceivableAsPaid, hfind]
      apply addTransaction_saldoUnique hu
      intro a ha hsa
      have hc := (of_decide_eq_true hsa).2
      simp at hc

theorem runOps_saldoUnique (ops : List Op) (s : Store) (hu : SaldoUnique s)
    (hok : OkSeq okOpSaldo s ops = true) : SaldoUnique (runOps s ops) := by
  induction ops generalizing s with
  | nil => exact hu
  | cons op rest ih =>
    simp only [OkSeq, Bool.and_eq_true] at hok
    exact ih (applyOp s op) (applyOp_saldoUnique hu hok.1) hok.2

/-! ### Claim theorems -/

/-- C1, counterexample: the claim as stated is false. Starting from the
empty store, `addAccount` with opening balance 100 followed by a
self-transfer of 50 (type Transfer with `toAccountId = accountId`, an
argument the API accepts) leaves the account's cached balance at 50 while
the signed sum of the log is 100: `addTransaction`'s balance patch returns
after the debit branch and never applies the matching credit, whereas the
spec's signed sum nets a self-transfer to zero. -/
theorem C1_counterexample :
    (getAccount (runOps emptyStore
      [.addAccount 1 "A" "Bank" 100 0,
       .addTransaction ⟨0, .Transfer, 1, some 1, 50, "Transfer", "",
         .Manual, none, none⟩]) 1).map Account.balance = some 50 ∧
    signedSum (runOps emptyStore
      [.addAccount 1 "A" "Bank" 100 0,
       .addTransaction ⟨0, .Transfer, 1, some 1, 50, "Transfer", "",
         .Manual, none, none⟩]).transactions 1 = 100 ∧
    ¬ BalanceOk (runOps emptyStore
      [.addAccount 1 "A" "Bank" 100 0,
       .addTransaction ⟨0, .Transfer, 1, some 1, 50, "Transfer", "",
         .Manual, none, none⟩]) := by
  exact ⟨by decide, by decide, by decide⟩

/-- C1 (amended): after every finite sequence of Ledger State Manager
operations starting from the empty store — with generated identifiers
globally unique, and every `addTransaction` call benign (category other
than the reserved `"Saldo Awal"`, no `linkedInvestmentId`, and not a
self-transfer) — every account's cached balance equals the signed sum of
the transactions referencing it. -/
theorem C1_balance_invariant (ops : List Op)
    (hok : OkSeq okOpBalance emptyStore ops = true) :
    BalanceOk (runOps emptyStore ops) :=
  (runOps_inv ops emptyStore emptyStore_ledgerInv hok).1

/-- C1, witness: a nine-operation run exercising transfers, investments,
receivables, account edits and the full-recompute delete. -/
theorem C1_balance_invariant_witness :
    OkSeq okOpBalance emptyStore
      [.addAccount 1 "A" "Bank" 500 0,
       .addAccount 2 "B" "Bank" 0 0,
       .addTransaction ⟨1, .Transfer, 1, some 2, 200, "Transfer", "",
         .Manual, none, none⟩,
       .addInvestment 3 "I" 1 1 4 100 100,
       .deleteInvestment 3 2,
       .addReceivable 5 "D" 50 9 2 1,
       .markReceivableAsPaid 5 2 3,
       .updateAccount ⟨1, "A2", "Bank", 0⟩ 300 4,
       .deleteReceivable 5] = true ∧
    BalanceOk (runOps emptyStore
      [.addAccount 1 "A" "Bank" 500 0,
       .addAccount 2 "B" "Bank" 0 0,
       .addTransaction ⟨1, .Transfer, 1, some 2, 200, "Transfer", "",
         .Manual, none, none⟩,
       .addInvestment 3 "I" 1 1 4 100 100,
       .deleteInvestment 3 2,
       .addReceivable 5 "D" 50 9 2 1,
       .markReceivableAsPaid 5 2 3,
       .updateAccount ⟨1, "A2", "Bank", 0⟩ 300 4,
       .deleteReceivable 5]) :=
  ⟨by decide, C1_balance_invariant _ (by decide)⟩

/-- C9, counterexample: `addTransaction` does not guard the reserved
category, so calling it with category `"Saldo Awal"` on an account that
already has an opening-balance entry yields two such transactions. -/
theorem C9_counterexample :
    (runOps emptyStore
      [.addAccount 1 "A" "Bank" 100 0,
       .addTransaction ⟨0, .Income, 1, none, 50, "Saldo Awal", "",
         .Manual, none, none⟩]).transactions.countP (isSaldoTx 1) = 2 ∧
    ¬ SaldoUnique (runOps emptyStore
      [.addAccount 1 "A" "Bank" 100 0,
       .addTransaction ⟨0, .Income, 1, none, 50, "Saldo Awal", "",
         .Manual, none, none⟩]) := by
  exact ⟨by decide, by decide⟩

/-- C9 (amended): in every state reachable from the empty store by
operations in which generated identifiers are globally unique and
`addTransaction` is never handed the reserved category `"Saldo Awal"`,
each account has at most one opening-balance transaction. -/
theorem C9_saldo_unique (ops : List Op)
    (hok : OkSeq okOpSaldo emptyStore ops = true) :
    SaldoUnique (runOps emptyStore ops) :=
  runOps_saldoUnique ops emptyStore (fun a ha => by simp [emptyStore] at ha) hok

/-- C9, witness: account creation, a benign manual transaction and two
opening-balance edits preserve uniqueness. -/
theorem C9_saldo_unique_witness :
    OkSeq okOpSaldo emptyStore
      [.addAccount 1 "A" "Bank" 100 0,
       .addTransaction ⟨0, .Income, 1, none, 5, "Gaji", "", .Manual, none, none⟩,
       .updateAccount ⟨1, "A", "Bank", 0⟩ 0 1,
       .updateAccount ⟨1, "A", "Bank", 0⟩ 250 2] = true ∧
    SaldoUnique (runOps emptyStore
      [.addAccount 1 "A" "Bank" 100 0,
       .addTransaction ⟨0, .Income, 1, none, 5, "Gaji", "", .Manual, none, none⟩,
       .updateAccount ⟨1, "A", "Bank", 0⟩ 0 1,
       .updateAccount ⟨1, "A", "Bank", 0⟩ 250 2]) :=
  ⟨by decide, C9_saldo_unique _ (by decide)⟩

/-- C2: `addAccount(data, initialBalance)` with a fresh generated id creates
the account (balance ending at `initialBalance`), appends exactly one
Income `"Saldo Awal"` transaction of that amount for the account when
`initialBalance ≠ 0`, and appends nothing when `initialBalance = 0`. -/
theorem C2_addAccount_spec (s : Store) (newId : Nat) (name ty : String)
    (ib today : Int) (hfresh : idUsed s newId = false) :
    getAccount (addAccount s newId name ty ib today) newId =
      some ⟨newId, name, ty, ib⟩ ∧
    (ib ≠ 0 → (addAccount s newId name ty ib today).transactions.countP
      (fun t => decide (t.accountId = newId ∧ t.category = "Saldo Awal" ∧
        t.type = .Income ∧ t.amount = ib)) = 1) ∧
    (ib = 0 → (addAccount s newId name ty ib today).transactions = s.transactions) := by
  obtain ⟨hacc, hinvf, htx⟩ := idUsed_spec hfresh
  have hfindbase : s.accounts.find? (fun a => decide (a.id = newId)) = none :=
    List.find?_eq_none.mpr (fun a ha => by simpa using hacc a ha)
  have hfind1 : (s.accounts ++ [(⟨newId, name, ty, 0⟩ : Account)]).find?
      (fun a => decide (a.id = newId)) = some ⟨newId, name, ty, 0⟩ := by
    rw [List.find?_append, hfindbase]
    simp [List.find?]
  have hcnt0 : s.transactions.countP
      (fun t => decide (t.accountId = newId ∧ t.category = "Saldo Awal" ∧
        t.type = .Income ∧ t.amount = ib)) = 0 := by
    apply List.countP_eq_zero.mpr
    intro t ht
    simp only [decide_eq_true_eq, not_and]
    intro hc
    exact absurd (htx t ht) (by simp [hc])
  by_cases hib : ib = 0
  · subst hib
    refine ⟨?_, fun h => absurd rfl h, fun _ => ?_⟩
    · show (s.accounts ++ [(⟨newId, name, ty, 0⟩ : Account)]).find?
        (fun a => decide (a.id = newId)) = some ⟨newId, name, ty, 0⟩
      exact hfind1
    · rfl
  · have hred : addAccount s newId name ty ib today =
        addTransaction { s with accounts := s.accounts ++ [⟨newId, name, ty, 0⟩] }
          ⟨today, .Income, newId, none, ib, "Saldo Awal",
            "Saldo awal untuk rekening " ++ name, .Manual, none, none⟩ := by
      simp only [addAccount]
      rw [if_pos hib]
    constructor
    · rw [hred, getAccount_addTransaction]
      show ((s.accounts ++ [(⟨newId, name, ty, 0⟩ : Account)]).find?
        (fun a => decide (a.id = newId))).map _ = _
      rw [hfind1]
      show some (applyTxToAccount _ ⟨newId, name, ty, 0⟩) = _
      simp [applyTxToAccount]
    · refine ⟨fun _ => ?_, fun h => absurd h hib⟩
      rw [hred]
      show (sortByDateDesc (_ :: s.transactions)).countP _ = 1
      rw [countP_sort, List.countP_cons, hcnt0]
      simp

/-- C2, witness: creating an account with opening balance 500 in the empty
store yields balance 500 and exactly one `"Saldo Awal"` transaction of 500. -/
theorem C2_addAccount_spec_witness :
    idUsed emptyStore 1 = false ∧
    (getAccount (addAccount emptyStore 1 "Kas" "Bank" 500 0) 1 =
      some ⟨1, "Kas", "Bank", 500⟩ ∧
    ((500 : Int) ≠ 0 → (addAccount emptyStore 1 "Kas" "Bank" 500 0).transactions.countP
      (fun t => decide (t.accountId = 1 ∧ t.category = "Saldo Awal" ∧
        t.type = .Income ∧ t.amount = 500)) = 1) ∧
    ((500 : Int) = 0 → (addAccount emptyStore 1 "Kas" "Bank" 500 0).transactions =
      emptyStore.transactions)) :=
  ⟨by decide, C2_addAccount_spec emptyStore 1 "Kas" "Bank" 500 0 (by decide)⟩

/-- C3, counterexample: with A = B (the API accepts a self-transfer), the
claim predicts the balance both decreases and increases by m, leaving the
total unchanged at 100; the code leaves the account at 50. -/
theorem C3_counterexample :
    getAccount (addTransaction (addAccount emptyStore 1 "A" "Bank" 100 0)
      ⟨0, .Transfer, 1, some 1, 50, "Transfer", "", .Manual, none, none⟩) 1 =
      some ⟨1, "A", "Bank", 50⟩ ∧
    ¬ getAccount (addTransaction (addAccount emptyStore 1 "A" "Bank" 100 0)
      ⟨0, .Transfer, 1, some 1, 50, "Transfer", "", .Manual, none, none⟩) 1 =
      some ⟨1, "A", "Bank", 100⟩ := by
  exact ⟨by decide, by decide⟩

/-- C3 (amended): for two distinct accounts A ≠ B present in the store and
any amount m ≥ 0, a Transfer from A to B debits A by m, credits B by m,
keeps the combined balance of A and B unchanged, and appends exactly one
Transaction record — both legs applied by the single `addTransaction`
update. -/
theorem C3_transfer (s : Store) (a b : Account) (m d : Int)
    (cat desc : String) (src : TransactionSource) (li lr : Option Nat)
    (ha : getAccount s a.id = some a) (hb : getAccount s b.id = some b)
    (hne : a.id ≠ b.id) (hm : 0 ≤ m) :
    (getAccount (addTransaction s
        ⟨d, .Transfer, a.id, some b.id, m, cat, desc, src, li, lr⟩)
      a.id).map Account.balance = some (a.balance - m) ∧
    (getAccount (addTransaction s
        ⟨d, .Transfer, a.id, some b.id, m, cat, desc, src, li, lr⟩)
      b.id).map Account.balance = some (b.balance + m) ∧
    (a.balance - m) + (b.balance + m) = a.balance + b.balance ∧
    (addTransaction s
      ⟨d, .Transfer, a.id, some b.id, m, cat, desc, src, li, lr⟩).transactions ~
      (⟨d, .Transfer, a.id, some b.id, m, cat, desc, src, li, lr⟩ : Transaction)
        :: s.transactions := by
  refine ⟨?_, ?_, by ring, sortByDateDesc_perm _⟩
  · rw [getAccount_addTransaction, ha]
    simp only [Option.map_map, Option.map_some]
    show some (applyTxToAccount _ a).balance = _
    simp [applyTxToAccount]
  · rw [getAccount_addTransaction, hb]
    show some (applyTxToAccount _ b).balance = _
    have hbne : ¬ b.id = a.id := fun hc => hne hc.symm
    simp [applyTxToAccount, hbne]

/-- C3, witness: a 30-unit transfer between two concrete accounts. -/
theorem C3_transfer_witness :
    (getAccount (addTransaction
        (addAccount (addAccount emptyStore 1 "A" "Bank" 100 0) 2 "B" "Bank" 50 0)
        ⟨3, .Transfer, 1, some 2, 30, "Transfer", "x", .Manual, none, none⟩)
      1).map Account.balance = some ((100 : Int) - 30) ∧
    (getAccount (addTransaction
        (addAccount (addAccount emptyStore 1 "A" "Bank" 100 0) 2 "B" "Bank" 50 0)
        ⟨3, .Transfer, 1, some 2, 30, "Transfer", "x", .Manual, none, none⟩)
      2).map Account.balance = some ((50 : Int) + 30) ∧
    ((100 : Int) - 30) + ((50 : Int) + 30) = 100 + 50 ∧
    (addTransaction
        (addAccount (addAccount emptyStore 1 "A" "Bank" 100 0) 2 "B" "Bank" 50 0)
        ⟨3, .Transfer, 1, some 2, 30, "Transfer", "x", .Manual, none, none⟩).transactions ~
      (⟨3, .Transfer, 1, some 2, 30, "Transfer", "x", .Manual, none, none⟩ : Transaction)
        :: (addAccount (addAccount emptyStore 1 "A" "Bank" 100 0) 2 "B" "Bank" 50 0).transactions :=
  C3_transfer _ ⟨1, "A", "Bank", 100⟩ ⟨2, "B", "Bank", 50⟩ 30 3 "Transfer" "x"
    .Manual none none (by decide) (by decide) (by decide) (by decide)

/-- C4: `updateAccount(account, newInitialBalance)` — with `oldInitialBalance`
read off the account's existing opening-balance transaction (0 if none) —
changes the stored account's cached balance by exactly
`newInitialBalance − oldInitialBalance`; afterwards the account has no
opening-balance transaction when `newInitialBalance = 0`, and exactly one,
with amount `newInitialBalance`, otherwise (removal / in-place update /
insertion per the three cases). -/
theorem C4_updateAccount_spec (s : Store) (accData : Account) (nib today : Int)
    (a : Account) (ha : getAccount s accData.id = some a)
    (huniq : s.transactions.countP (isSaldoTx accData.id) ≤ 1) :
    (getAccount (updateAccount s accData nib today) accData.id).map Account.balance =
      some (a.balance + (nib -
        (match s.transactions.find? (isSaldoTx accData.id) with
         | some t => t.amount
         | none => 0))) ∧
    (nib = 0 → (updateAccount s accData nib today).transactions.countP
      (isSaldoTx accData.id) = 0) ∧
    (nib ≠ 0 → ((updateAccount s accData nib today).transactions.filter
      (isSaldoTx accData.id)).map Transaction.amount = [nib]) := by
  cases hfind : s.transactions.find? (isSaldoTx accData.id) with
  | some t0 =>
    obtain ⟨l₁, l₂, hsplitL, hl₁, hpt0, herase, hupd⟩ := find?_decomp hfind
    have hfl₁ : l₁.filter (isSaldoTx accData.id) = [] :=
      List.filter_eq_nil_iff.mpr (fun x hx => by simp [hl₁ x hx])
    have hcl₂ : l₂.countP (isSaldoTx accData.id) = 0 := by
      have hcnt : s.transactions.countP (isSaldoTx accData.id) =
          l₁.countP (isSaldoTx accData.id) + l₂.countP (isSaldoTx accData.id) + 1 := by
        rw [hsplitL, List.countP_append, List.countP_cons, hpt0]
        simp
        omega
      omega
    have hfl₂ : l₂.filter (isSaldoTx accData.id) = [] := by
      rw [List.countP_eq_length_filter] at hcl₂
      exact List.length_eq_zero.mp hcl₂
    refine ⟨?_, fun h0 => ?_, fun hnz => ?_⟩
    · simp only [updateAccount, hfind]
      show ((s.accounts.map _).find? (fun x => decide (x.id = accData.id))).map
        Account.balance = _
      have ha' : s.accounts.find? (fun x => decide (x.id = accData.id)) = some a := ha
      rw [find?_map_idpres (patch_id accData (nib - t0.amount)) s.accounts, ha']
      have haid : a.id = accData.id := by
        simpa using List.find?_some ha'
      simp [haid]
    · simp only [updateAccount, hfind]
      rw [if_pos h0]
      show (sortByDateDesc (s.transactions.eraseP (isSaldoTx accData.id))).countP
        (isSaldoTx accData.id) = 0
      rw [countP_sort, herase, List.countP_append]
      have h1 : l₁.countP (isSaldoTx accData.id) = 0 := by
        rw [List.countP_eq_length_filter, hfl₁]
        rfl
      omega
    · simp only [updateAccount, hfind]
      rw [if_neg hnz]
      show ((sortByDateDesc (updateFirst (isSaldoTx accData.id) _
        s.transactions)).filter (isSaldoTx accData.id)).map Transaction.amount = [nib]
      rw [hupd]
      have hperm := (sortByDateDesc_perm
        (l₁ ++ { t0 with amount := nib } :: l₂)).filter (isSaldoTx accData.id)
      have hone : (l₁ ++ { t0 with amount := nib } :: l₂).filter
          (isSaldoTx accData.id) = [{ t0 with amount := nib }] := by
        have hpt0' : isSaldoTx accData.id { t0 with amount := nib } = true := hpt0
        rw [List.filter_append, List.filter_cons_of_pos hpt0', hfl₁, hfl₂]
        rfl
      rw [hone] at hperm
      rw [List.perm_singleton.mp hperm]
      rfl
  | none =>
    have hcnt0 : s.transactions.countP (isSaldoTx accData.id) = 0 :=
      List.countP_eq_zero.mpr (List.find?_eq_none.mp hfind)
    have hfl : s.transactions.filter (isSaldoTx accData.id) = [] := by
      have hc := hcnt0
      rw [List.countP_eq_length_filter] at hc
      exact List.length_eq_zero.mp hc
    refine ⟨?_, fun h0 => ?_, fun hnz => ?_⟩
    · simp only [updateAccount, hfind]
      show ((s.accounts.map _).find? (fun x => decide (x.id = accData.id))).map
        Account.balance = _
      have ha' : s.accounts.find? (fun x => decide (x.id = accData.id)) = some a := ha
      rw [find?_map_idpres (patch_id accData (nib - 0)) s.accounts, ha']
      have haid : a.id = accData.id := by
        simpa using List.find?_some ha'
      simp [haid]
    · simp only [updateAccount, hfind]
      rw [if_neg (by simpa using h0)]
      show (sortByDateDesc s.transactions).countP (isSaldoTx accData.id) = 0
      rw [countP_sort]
      exact hcnt0
    · simp only [updateAccount, hfind]
      rw [if_pos hnz]
      have hnewp : isSaldoTx accData.id
          (⟨today, .Income, accData.id, none, nib, "Saldo Awal",
            "Saldo awal untuk rekening " ++ accData.name, .Manual, none,
            none⟩ : Transaction) = true := by
        simp [isSaldoTx]
      have hperm := (sortByDateDesc_perm
        ((⟨today, .Income, accData.id, none, nib, "Saldo Awal",
          "Saldo awal untuk rekening " ++ accData.name, .Manual, none,
          none⟩ : Transaction) :: s.transactions)).filter (isSaldoTx accData.id)
      have hone : ((⟨today, .Income, accData.id, none, nib, "Saldo Awal",
          "Saldo awal untuk rekening " ++ accData.name, .Manual, none,
          none⟩ : Transaction) :: s.transactions).filter (isSaldoTx accData.id) =
          [⟨today, .Income, accData.id, none, nib, "Saldo Awal",
            "Saldo awal untuk rekening " ++ accData.name, .Manual, none, none⟩] := by
        rw [List.filter_cons_of_pos hnewp, hfl]
      show ((sortByDateDesc _).filter (isSaldoTx accData.id)).map
        Transaction.amount = [nib]
      rw [hone] at hperm
      rw [List.perm_singleton.mp hperm]
      rfl

/-- C4, witness: resetting an opening balance of 500 to 0 removes the
opening-balance transaction and reduces the balance by 500 (to 0). -/
theorem C4_updateAccount_spec_witness :
    (getAccount (updateAccount (addAccount emptyStore 1 "Kas" "Bank" 500 0)
        ⟨1, "Kas", "Bank", 500⟩ 0 7) 1).map Account.balance =
      some ((500 : Int) + (0 -
        (match (addAccount emptyStore 1 "Kas" "Bank" 500 0).transactions.find?
          (isSaldoTx 1) with
         | some t => t.amount
         | none => 0))) ∧
    ((0 : Int) = 0 → (updateAccount (addAccount emptyStore 1 "Kas" "Bank" 500 0)
      ⟨1, "Kas", "Bank", 500⟩ 0 7).transactions.countP (isSaldoTx 1) = 0) ∧
    ((0 : Int) ≠ 0 → ((updateAccount (addAccount emptyStore 1 "Kas" "Bank" 500 0)
      ⟨1, "Kas", "Bank", 500⟩ 0 7).transactions.filter
        (isSaldoTx 1)).map Transaction.amount = [0]) :=
  C4_updateAccount_spec (addAccount emptyStore 1 "Kas" "Bank" 500 0)
    ⟨1, "Kas", "Bank", 500⟩ 0 7 ⟨1, "Kas", "Bank", 500⟩ (by decide) (by decide)

/-- C5: `deleteAccount(id)` is rejected — leaving all five collections
unchanged — exactly when some non-opening transaction references the
account as source or destination or some investment is funded from it;
otherwise it removes exactly the account and its opening-balance
transactions, leaving everything else unchanged. -/
theorem C5_deleteAccount_spec (s : Store) (id : Nat) :
    (isAccountInUse s id = true ↔
      ((∃ t ∈ s.transactions, (t.accountId = id ∨ t.toAccountId = some id) ∧
        t.category ≠ "Saldo Awal") ∨ (∃ i ∈ s.investments, i.accountId = id))) ∧
    (isAccountInUse s id = true → deleteAccount s id = s) ∧
    (isAccountInUse s id = false →
      (deleteAccount s id).accounts =
        s.accounts.filter (fun a => decide (a.id ≠ id)) ∧
      (deleteAccount s id).transactions = s.transactions.filter
        (fun t => decide (¬(t.accountId = id ∧ t.category = "Saldo Awal"))) ∧
      (deleteAccount s id).platforms = s.platforms ∧
      (deleteAccount s id).investments = s.investments ∧
      (deleteAccount s id).receivables = s.receivables) := by
  refine ⟨?_, fun huse => ?_, fun hfree => ?_⟩
  · unfold isAccountInUse
    simp [List.any_eq_true]
  · unfold deleteAccount
    rw [if_pos huse]
  · unfold deleteAccount
    rw [if_neg (by simp [hfree])]
    exact ⟨rfl, rfl, rfl, rfl, rfl⟩

/-- C5, witness: the in-use account 1 (referenced by a transfer leg) is not
deleted; the unused account 2 is removed together with its opening entry. -/
theorem C5_deleteAccount_spec_witness :
    (isAccountInUse (addTransaction (addAccount (addAccount emptyStore
        1 "A" "Bank" 100 0) 2 "B" "Bank" 50 0)
        ⟨3, .Transfer, 1, some 2, 30, "Transfer", "", .Manual, none, none⟩) 1 = true →
      deleteAccount (addTransaction (addAccount (addAccount emptyStore
        1 "A" "Bank" 100 0) 2 "B" "Bank" 50 0)
        ⟨3, .Transfer, 1, some 2, 30, "Transfer", "", .Manual, none, none⟩) 1 =
      addTransaction (addAccount (addAccount emptyStore
        1 "A" "Bank" 100 0) 2 "B" "Bank" 50 0)
        ⟨3, .Transfer, 1, some 2, 30, "Transfer", "", .Manual, none, none⟩) ∧
    (isAccountInUse (addAccount (addAccount emptyStore 1 "A" "Bank" 100 0)
        2 "B" "Bank" 50 0) 2 = false →
      (deleteAccount (addAccount (addAccount emptyStore 1 "A" "Bank" 100 0)
        2 "B" "Bank" 50 0) 2).accounts =
        (addAccount (addAccount emptyStore 1 "A" "Bank" 100 0)
          2 "B" "Bank" 50 0).accounts.filter (fun a => decide (a.id ≠ 2)) ∧
      (deleteAccount (addAccount (addAccount emptyStore 1 "A" "Bank" 100 0)
        2 "B" "Bank" 50 0) 2).transactions =
        (addAccount (addAccount emptyStore 1 "A" "Bank" 100 0)
          2 "B" "Bank" 50 0).transactions.filter
          (fun t => decide (¬(t.accountId = 2 ∧ t.category = "Saldo Awal"))) ∧
      (deleteAccount (addAccount (addAccount emptyStore 1 "A" "Bank" 100 0)
        2 "B" "Bank" 50 0) 2).platforms =
        (addAccount (addAccount emptyStore 1 "A" "Bank" 100 0)
          2 "B" "Bank" 50 0).platforms ∧
      (deleteAccount (addAccount (addAccount emptyStore 1 "A" "Bank" 100 0)
        2 "B" "Bank" 50 0) 2).investments =
        (addAccount (addAccount emptyStore 1 "A" "Bank" 100 0)
          2 "B" "Bank" 50 0).investments ∧
      (deleteAccount (addAccount (addAccount emptyStore 1 "A" "Bank" 100 0)
        2 "B" "Bank" 50 0) 2).receivables =
        (addAccount (addAccount emptyStore 1 "A" "Bank" 100 0)
          2 "B" "Bank" 50 0).receivables) :=
  ⟨(C5_deleteAccount_spec _ 1).2.1, (C5_deleteAccount_spec _ 2).2.2⟩

/-- C6: adding an investment funded from account A and immediately deleting
it leaves A's balance exactly equal to its value before the investment:
the capital outflow and the compensating refund cancel exactly. -/
theorem C6_invest_roundtrip (s : Store) (a : Account) (invId : Nat)
    (nm : String) (d : Int) (pid : Nat) (iv cv : Int) (today : Int)
    (ha : getAccount s a.id = some a)
    (hfresh : ∀ i ∈ s.investments, i.id ≠ invId) :
    (getAccount (deleteInvestment
        (addInvestment s invId nm d a.id pid iv cv) invId today) a.id).map
      Account.balance = some a.balance := by
  have hfind : (addInvestment s invId nm d a.id pid iv cv).investments.find?
      (fun inv => decide (inv.id = invId)) =
      some ⟨invId, nm, d, a.id, pid, iv, cv⟩ := by
    show (s.investments ++ [_]).find? _ = _
    rw [List.find?_append,
      List.find?_eq_none.mpr (fun i hi => by simpa using hfresh i hi)]
    simp [List.find?]
  simp only [deleteInvestment, hfind]
  show (getAccount (addTransaction (addInvestment s invId nm d a.id pid iv cv) _)
    a.id).map Account.balance = _
  rw [getAccount_addTransaction]
  have hga : getAccount (addInvestment s invId nm d a.id pid iv cv) a.id =
      (getAccount s a.id).map (applyTxToAccount
        ⟨d, .Expense, a.id, none, iv, "Investasi",
          "Modal awal investasi " ++ nm, .Investment, some invId, none⟩) :=
    getAccount_addTransaction
      { s with investments := s.investments ++ [⟨invId, nm, d, a.id, pid, iv, cv⟩] }
      _ a.id
  rw [hga, ha]
  show some (applyTxToAccount _ (applyTxToAccount _ a)).balance = _
  have h1 : applyTxToAccount
      (⟨d, .Expense, a.id, none, iv, "Investasi",
        "Modal awal investasi " ++ nm, .Investment, some invId, none⟩ : Transaction)
      a = { a with balance := a.balance - iv } := by
    simp [applyTxToAccount]
  rw [h1]
  simp [applyTxToAccount]

/-- C6, witness: a 1000-unit investment round trip on an account holding
2000 restores the balance to 2000. -/
theorem C6_invest_roundtrip_witness :
    (getAccount (deleteInvestment
        (addInvestment (addAccount emptyStore 1 "A" "Bank" 2000 0)
          2 "Emas" 1 1 3 1000 1000) 2 4) 1).map
      Account.balance = some (2000 : Int) :=
  C6_invest_roundtrip (addAccount emptyStore 1 "A" "Bank" 2000 0)
    ⟨1, "A", "Bank", 2000⟩ 2 "Emas" 1 3 1000 1000 4 (by decide) (by decide)

/-- C7, counterexample: after `addInvestment` then `deleteInvestment`, the
compensating `"Pengembalian Investasi"` Income transaction is NOT present
in the log — the deletion filter `linkedInvestmentId = id ∧ source =
Investment` matches the just-appended refund too and removes it along with
the original Expense (its balance credit, however, was applied). -/
theorem C7_counterexample :
    (deleteInvestment (addInvestment (addAccount emptyStore 1 "A" "Bank" 0 0)
        2 "Inv" 0 1 3 100 100) 2 0).transactions.countP
      (fun t => decide (t.category = "Pengembalian Investasi")) = 0 ∧
    (deleteInvestment (addInvestment (addAccount emptyStore 1 "A" "Bank" 0 0)
        2 "Inv" 0 1 3 100 100) 2 0).transactions = [] ∧
    (getAccount (deleteInvestment (addInvestment (addAccount emptyStore
        1 "A" "Bank" 0 0) 2 "Inv" 0 1 3 100 100) 2 0) 1).map
      Account.balance = some 0 := by
  exact ⟨by decide, by decide, by decide⟩

/-- C7 (amended): `deleteInvestment(id)` on an existing investment credits
the funding account with `initialValue` (the compensating Income
transaction's balance effect), removes the Investment record, and removes
from the log every transaction with this `linkedInvestmentId` and source
`Investment` — including the just-appended compensating transaction itself —
so that afterwards neither the compensating Income transaction nor the
original linked Expense transaction is present. -/
theorem C7_deleteInvestment_spec (s : Store) (id : Nat) (today : Int)
    (inv0 : Investment)
    (hfind : s.investments.find? (fun i => decide (i.id = id)) = some inv0) :
    (deleteInvestment s id today).investments =
      s.investments.filter (fun i => decide (i.id ≠ id)) ∧
    (∀ t ∈ (deleteInvestment s id today).transactions,
      ¬(t.linkedInvestmentId = some id ∧ t.source = .Investment)) ∧
    ((getAccount (deleteInvestment s id today) inv0.accountId).map
      Account.balance =
      (getAccount s inv0.accountId).map (fun a => a.balance + inv0.initialValue)) ∧
    (deleteInvestment s id today).transactions ~ s.transactions.filter
      (fun t => decide (¬(t.linkedInvestmentId = some id ∧
        t.source = .Investment))) := by
  simp only [deleteInvestment, hfind]
  refine ⟨rfl, ?_, ?_, ?_⟩
  · intro t ht
    have hq := (List.mem_filter.mp ht).2
    rw [decide_eq_true_eq] at hq
    exact hq
  · show ((getAccount (addTransaction s _) inv0.accountId).map Account.balance) = _
    rw [getAccount_addTransaction]
    cases hga : getAccount s inv0.accountId with
    | none => rfl
    | some a =>
      have haid : a.id = inv0.accountId := by
        simpa [getAccount] using List.find?_some hga
      show some (applyTxToAccount _ a).balance = _
      simp [applyTxToAccount, haid]
  · show (sortByDateDesc (_ :: s.transactions)).filter _ ~ _
    refine ((sortByDateDesc_perm _).filter _).trans ?_
    rw [List.filter_cons_of_neg (by simp)]

/-- C7, witness: concrete round trip in a one-account store. -/
theorem C7_deleteInvestment_spec_witness :
    (deleteInvestment (addInvestment (addAccount emptyStore 1 "A" "Bank" 0 0)
        2 "Inv" 0 1 3 100 100) 2 9).investments =
      (addInvestment (addAccount emptyStore 1 "A" "Bank" 0 0)
        2 "Inv" 0 1 3 100 100).investments.filter (fun i => decide (i.id ≠ 2)) ∧
    (∀ t ∈ (deleteInvestment (addInvestment (addAccount emptyStore
        1 "A" "Bank" 0 0) 2 "Inv" 0 1 3 100 100) 2 9).transactions,
      ¬(t.linkedInvestmentId = some 2 ∧ t.source = .Investment)) ∧
    ((getAccount (deleteInvestment (addInvestment (addAccount emptyStore
        1 "A" "Bank" 0 0) 2 "Inv" 0 1 3 100 100) 2 9) 1).map Account.balance =
      (getAccount (addInvestment (addAccount emptyStore 1 "A" "Bank" 0 0)
        2 "Inv" 0 1 3 100 100) 1).map (fun a => a.balance + 100)) ∧
    (deleteInvestment (addInvestment (addAccount emptyStore 1 "A" "Bank" 0 0)
        2 "Inv" 0 1 3 100 100) 2 9).transactions ~
      (addInvestment (addAccount emptyStore 1 "A" "Bank" 0 0)
        2 "Inv" 0 1 3 100 100).transactions.filter
        (fun t => decide (¬(t.linkedInvestmentId = some 2 ∧
          t.source = .Investment))) :=
  C7_deleteInvestment_spec (addInvestment (addAccount emptyStore
    1 "A" "Bank" 0 0) 2 "Inv" 0 1 3 100 100) 2 9 ⟨2, "Inv", 0, 1, 3, 100, 100⟩
    (by decide)

/-- C8: operations targeting a nonexistent entity are silent no-ops, each
under its own condition only: for every id matching no investment
(regardless of whether a receivable bears it), `deleteInvestment` leaves
the store — all five collections — exactly unchanged; and for every id
matching no receivable (regardless of whether an investment bears it),
`markReceivableAsPaid` leaves the store exactly unchanged. -/
theorem C8_missing_entity_noop (s : Store) (id aid : Nat) (today : Int) :
    ((∀ i ∈ s.investments, i.id ≠ id) → deleteInvestment s id today = s) ∧
    ((∀ r ∈ s.receivables, r.id ≠ id) → markReceivableAsPaid s id aid today = s) := by
  constructor
  · intro hinv
    have hf : s.investments.find? (fun inv => decide (inv.id = id)) = none :=
      List.find?_eq_none.mpr (fun x hx => by simpa using hinv x hx)
    simp only [deleteInvestment, hf]
  · intro hrec
    have hf : s.receivables.find? (fun r => decide (r.id = id)) = none :=
      List.find?_eq_none.mpr (fun x hx => by simpa using hrec x hx)
    simp only [markReceivableAsPaid, hf]

/-- C8, witness: in a store holding account 1, investment 2 and
receivable 5, `deleteInvestment` called with the receivable's id 5 (a
wrong-entity-type caller mistake: no investment bears it) changes
nothing, and `markReceivableAsPaid` called with the investment's id 2
(no receivable bears it) changes nothing. -/
theorem C8_missing_entity_noop_witness :
    deleteInvestment (addReceivable (addInvestment (addAccount emptyStore
      1 "A" "Bank" 100 0) 2 "Inv" 0 1 3 40 40) 5 "D" 25 9 1 0) 5 7 =
      addReceivable (addInvestment (addAccount emptyStore
        1 "A" "Bank" 100 0) 2 "Inv" 0 1 3 40 40) 5 "D" 25 9 1 0 ∧
    markReceivableAsPaid (addReceivable (addInvestment (addAccount emptyStore
      1 "A" "Bank" 100 0) 2 "Inv" 0 1 3 40 40) 5 "D" 25 9 1 0) 2 1 7 =
      addReceivable (addInvestment (addAccount emptyStore
        1 "A" "Bank" 100 0) 2 "Inv" 0 1 3 40 40) 5 "D" 25 9 1 0 :=
  ⟨(C8_missing_entity_noop (addReceivable (addInvestment (addAccount emptyStore
      1 "A" "Bank" 100 0) 2 "Inv" 0 1 3 40 40) 5 "D" 25 9 1 0) 5 1 7).1
    (by decide),
   (C8_missing_entity_noop (addReceivable (addInvestment (addAccount emptyStore
      1 "A" "Bank" 100 0) 2 "Inv" 0 1 3 40 40) 5 "D" 25 9 1 0) 2 1 7).2
    (by decide)⟩

/-- C10: `markReceivableAsPaid` guards only on existence, not on status:
on a receivable already Paid it appends a further Income transaction of
the full amount (category `"Piutang"`, linked to the receivable), credits
the target account by that amount again, and the status remains Paid. -/
theorem C10_markPaid_no_status_guard (s : Store) (id aid : Nat) (today : Int)
    (r : Receivable) (a : Account)
    (hfind : s.receivables.find? (fun x => decide (x.id = id)) = some r)
    (hpaid : r.status = .Paid)
    (ha : getAccount s aid = some a) :
    (getAccount (markReceivableAsPaid s id aid today) aid).map Account.balance =
      some (a.balance + r.amount) ∧
    (markReceivableAsPaid s id aid today).transactions ~
      (⟨today, .Income, aid, none, r.amount, "Piutang",
        "Pembayaran piutang dari " ++ r.debtorName, .Receivable, none,
        some id⟩ : Transaction) :: s.transactions ∧
    (∀ r' ∈ (markReceivableAsPaid s id aid today).receivables,
      r'.id = id → r'.status = .Paid) := by
  simp only [markReceivableAsPaid, hfind]
  refine ⟨?_, ?_, ?_⟩
  · rw [getAccount_addTransaction]
    have ha' : getAccount { s with receivables := s.receivables.map (fun x =>
        if x.id = id then { x with status := .Paid } else x) } aid = some a := ha
    rw [ha']
    have haid : a.id = aid := by
      simpa [getAccount] using List.find?_some ha
    show some (applyTxToAccount _ a).balance = _
    simp [applyTxToAccount, haid]
  · exact sortByDateDesc_perm _
  · intro r' hr' hid
    simp only [addTransaction] at hr'
    obtain ⟨x, hx, rfl⟩ := List.mem_map.mp hr'
    by_cases hxid : x.id = id
    · rw [if_pos hxid]
    · rw [if_neg hxid] at hid ⊢
      exact absurd hid hxid

/-- C10, witness: marking the same receivable paid twice credits the
account twice; after the second call the balance is 400 on a receivable of
200 and the status is still Paid. -/
theorem C10_markPaid_no_status_guard_witness :
    (getAccount (markReceivableAsPaid (markReceivableAsPaid (addReceivable
        (addAccount emptyStore 1 "A" "Bank" 200 0) 2 "Budi" 200 9 1 0)
        2 1 0) 2 1 0) 1).map Account.balance = some ((200 : Int) + 200) ∧
    (markReceivableAsPaid (markReceivableAsPaid (addReceivable
        (addAccount emptyStore 1 "A" "Bank" 200 0) 2 "Budi" 200 9 1 0)
        2 1 0) 2 1 0).transactions ~
      (⟨0, .Income, 1, none, 200, "Piutang", "Pembayaran piutang dari Budi",
        .Receivable, none, some 2⟩ : Transaction) ::
        (markReceivableAsPaid (addReceivable (addAccount emptyStore
          1 "A" "Bank" 200 0) 2 "Budi" 200 9 1 0) 2 1 0).transactions ∧
    (∀ r' ∈ (markReceivableAsPaid (markReceivableAsPaid (addReceivable
        (addAccount emptyStore 1 "A" "Bank" 200 0) 2 "Budi" 200 9 1 0)
        2 1 0) 2 1 0).receivables, r'.id = 2 → r'.status = .Paid) :=
  C10_markPaid_no_status_guard (markReceivableAsPaid (addReceivable
      (addAccount emptyStore 1 "A" "Bank" 200 0) 2 "Budi" 200 9 1 0) 2 1 0)
    2 1 0 ⟨2, "Budi", 200, 9, 1, .Paid⟩ ⟨1, "A", "Bank", 200⟩
    (by decide) (by decide) (by decide)
